import Mathlib

/-!
Verification development for the SensorBox serial GUI suite.

The definitions below are a shallow embedding of the serial worker
(`SerialWorker` in `Calibrator_V13.py` and `SensorReader_V12.py`), the
line-protocol handling (`CalibrationWindow.handle_data`,
`CalibrationPlotWidget.update_from_equations`,
`QualityWidget.update_from_data`, `CalibrationWindow.parse_status_compact`,
`SensorReaderSegment1.handle_data`, `parse_sensor_readings`).  Python
strings are modelled as `String` (computing on the underlying `List Char`),
Python floats produced by `float(...)` on decimal literals as `ℚ`, and the
specific regular expressions used by the source are hand-compiled into
deterministic scanning functions that implement exactly the same
leftmost-search, greedy, ordered-alternation semantics on the character
classes that occur.
-/

set_option maxRecDepth 20000

namespace SensorBox

/-! ### Python string primitives -/

/-- Python whitespace, as used by `str.strip()` and the regex class `\s`
(the ASCII range, which is all the protocol uses). -/
def isPySpace (c : Char) : Bool :=
  c == ' ' || c == '\t' || c == '\n' || c == '\r' || c == '\x0b' || c == '\x0c'

/-- The regex character class `[-\d.]`. -/
def isNumDash (c : Char) : Bool := c.isDigit || c == '.' || c == '-'

/-- The regex character class `[\d.]`. -/
def isNumDot (c : Char) : Bool := c.isDigit || c == '.'

/-- `str.strip()` on a character list. -/
def stripL (l : List Char) : List Char :=
  ((l.dropWhile isPySpace).reverse.dropWhile isPySpace).reverse

/-- Python `str.strip()`. -/
def pyStrip (s : String) : String := ⟨stripL s.data⟩

/-- Python `str.split(c)` (full split on a one-character separator):
always returns at least one piece, empty pieces are kept — the behaviour
of `List.splitOn`. -/
def splitOnCharL (c : Char) (l : List Char) : List (List Char) := l.splitOn c

/-- Python `s.split(c)` on `String`. -/
def pySplit (s : String) (c : Char) : List String := (splitOnCharL c s.data).map String.mk

/-- Python `"\n".join(lines)`. -/
def joinNL (ls : List String) : String := ⟨List.intercalate ['\n'] (ls.map String.data)⟩

/-- Python `sub in s` (substring containment). -/
def containsSub (s sub : String) : Prop := sub.data <:+: s.data

instance (s sub : String) : Decidable (containsSub s sub) :=
  inferInstanceAs (Decidable (sub.data <:+: s.data))

/-- Python `s.startswith(p)`. -/
def startsWithPy (s p : String) : Prop := p.data <+: s.data

instance (s p : String) : Decidable (startsWithPy s p) :=
  inferInstanceAs (Decidable (p.data <+: s.data))

/-- Case-sensitive literal match at the front of the input; returns the
remainder on success. -/
def dropLit : List Char → List Char → Option (List Char)
  | [], l => some l
  | _ :: _, [] => none
  | p :: ps, c :: cs => if p = c then dropLit ps cs else none

/-- Case-insensitive literal match at the front of the input (the effect of
`re.IGNORECASE` on a literal); returns the remainder on success. -/
def dropLitCi : List Char → List Char → Option (List Char)
  | [], l => some l
  | _ :: _, [] => none
  | p :: ps, c :: cs => if p.toLower = c.toLower then dropLitCi ps cs else none

/-- `re.search` position scan: try the pattern matcher `f` at every suffix,
left to right (the empty suffix included), returning the first success. -/
def scanFirst (f : List Char → Option α) : List Char → Option α
  | [] => f []
  | c :: rest => (f (c :: rest)).orElse fun _ => scanFirst f rest

/-! ### Python `float()` on the decimal literals produced by the regexes -/

/-- Value of a digit string. -/
def digitsVal (l : List Char) : ℕ := l.foldl (fun n c => 10 * n + (c.toNat - 48)) 0

/-- Unsigned part of Python `float()` restricted to strings over digits and
a dot: `digits [. digits]` with at least one digit in total. -/
def floatCore (l : List Char) : Option ℚ :=
  let ip := l.takeWhile Char.isDigit
  let r := l.dropWhile Char.isDigit
  match r with
  | [] => if ip.isEmpty then none else some (digitsVal ip)
  | '.' :: r2 =>
    let fp := r2.takeWhile Char.isDigit
    let r3 := r2.dropWhile Char.isDigit
    if r3.isEmpty then
      if ip.isEmpty && fp.isEmpty then none
      else some ((digitsVal ip : ℚ) + (digitsVal fp : ℚ) / (10 : ℚ) ^ fp.length)
    else none
  | _ => none

/-- Python `float(s)` on the strings matched by the classes `[-\d.]+` /
`[\d.]+` (an optional sign then digits with at most one dot); `none` models
the `ValueError` that a malformed literal raises. -/
def pyFloat (s : String) : Option ℚ :=
  match s.data with
  | '-' :: r => (floatCore r).map Neg.neg
  | '+' :: r => floatCore r
  | l => floatCore l

/-! ### The field regexes of `SensorReaderSegment1.handle_data`

`EC:\s*([-\d.]+|NOT CALIBRATED)` (IGNORECASE),
`(?:Temp|T):\s*([-\d.]+)`, `pH:\s*([-\d.]+|NOT CALIBRATED)` (IGNORECASE).
The two character classes in each pattern are disjoint from `\s` and from
the following literals, so the greedy scan below is exactly the Python
backtracking behaviour. -/

/-- Tail of `key` + `\s*` + (`numClass`⁺ | `marker`), both literals matched
case-insensitively; returns the text of capture group 1. -/
def fieldWithMarkerCi (key marker : List Char) (numClass : Char → Bool)
    (l : List Char) : Option (List Char) :=
  match dropLitCi key l with
  | none => none
  | some r =>
    let r2 := r.dropWhile isPySpace
    let run := r2.takeWhile numClass
    if run.isEmpty then
      match dropLitCi marker r2 with
      | some _ => some (r2.take marker.length)
      | none => none
    else some run

/-- Tail of `key` + `\s*` + (`numClass`⁺ | `marker`), all case-sensitive. -/
def fieldWithMarkerCs (key marker : List Char) (numClass : Char → Bool)
    (l : List Char) : Option (List Char) :=
  match dropLit key l with
  | none => none
  | some r =>
    let r2 := r.dropWhile isPySpace
    let run := r2.takeWhile numClass
    if run.isEmpty then
      match dropLit marker r2 with
      | some _ => some (r2.take marker.length)
      | none => none
    else some run

/-- Tail of `key` + `\s*` + `numClass`⁺ (no marker alternative),
case-sensitive. -/
def fieldNum (key : List Char) (numClass : Char → Bool)
    (l : List Char) : Option (List Char) :=
  match dropLit key l with
  | none => none
  | some r =>
    let run := (r.dropWhile isPySpace).takeWhile numClass
    if run.isEmpty then none else some run

/-- `re.search(r"EC:\s*([-\d.]+|NOT CALIBRATED)", data, re.IGNORECASE)`,
group 1. -/
def ecSearchReader (s : String) : Option String :=
  (scanFirst (fieldWithMarkerCi "EC:".data "NOT CALIBRATED".data isNumDash) s.data).map String.mk

/-- `re.search(r"(?:Temp|T):\s*([-\d.]+)", data)`, group 1: at each
position the `Temp` alternative is tried in full before the `T`
alternative, exactly as Python backtracks an ordered alternation. -/
def tempSearchReader (s : String) : Option String :=
  (scanFirst
    (fun l => (fieldNum "Temp:".data isNumDash l).orElse fun _ => fieldNum "T:".data isNumDash l)
    s.data).map String.mk

/-- `re.search(r"pH:\s*([-\d.]+|NOT CALIBRATED)", data, re.IGNORECASE)`,
group 1. -/
def phSearchReader (s : String) : Option String :=
  (scanFirst (fieldWithMarkerCi "pH:".data "NOT CALIBRATED".data isNumDash) s.data).map String.mk

/-! ### The regexes of `CalibrationWindow.parse_sensor_reading` -/

/-- `re.search(r"EC:\s*([\d.]+|N/A)", data)`, group 1. -/
def ecSearchCal (s : String) : Option String :=
  (scanFirst (fieldWithMarkerCs "EC:".data "N/A".data isNumDot) s.data).map String.mk

/-- `re.search(r"(?:T|Temp):\s*([\d.]+)", data)`, group 1 (the `T`
alternative is tried first). -/
def tempSearchCal (s : String) : Option String :=
  (scanFirst
    (fun l => (fieldNum "T:".data isNumDot l).orElse fun _ => fieldNum "Temp:".data isNumDot l)
    s.data).map String.mk

/-- `re.search(r"pH:\s*([\d.]+|N/A)", data)`, group 1. -/
def phSearchCal (s : String) : Option String :=
  (scanFirst (fieldWithMarkerCs "pH:".data "N/A".data isNumDot) s.data).map String.mk

/-! ### The regexes of `CalibrationPlotWidget.update_from_equations` -/

/-- Matcher at one position for
`=\s*([-\d.]+)\s*\*\s*V_mV\s*\+\s*([-\d.]+)`: all the classes are disjoint
from the literals that follow them, so greedy maximal runs are exact. -/
def equationAt (l : List Char) : Option (List Char × List Char) :=
  match l with
  | '=' :: r =>
    let r := r.dropWhile isPySpace
    let g1 := r.takeWhile isNumDash
    let r := r.dropWhile isNumDash
    if g1.isEmpty then none else
    match (r.dropWhile isPySpace) with
    | '*' :: r =>
      match dropLit "V_mV".data (r.dropWhile isPySpace) with
      | none => none
      | some r =>
        match (r.dropWhile isPySpace) with
        | '+' :: r =>
          let g2 := (r.dropWhile isPySpace).takeWhile isNumDash
          if g2.isEmpty then none else some (g1, g2)
        | _ => none
    | _ => none
  | _ => none

/-- `re.search(r"=\s*([-\d.]+)\s*\*\s*V_mV\s*\+\s*([-\d.]+)", line)`,
groups 1 and 2. -/
def equationSearch (s : String) : Option (String × String) :=
  (scanFirst equationAt s.data).map fun p => (String.mk p.1, String.mk p.2)

/-- `re.match(r"P\d+:", line)`: `P`, at least one digit, then `:`, anchored
at the start of the line. -/
def pointHead (s : String) : Bool :=
  match s.data with
  | 'P' :: r =>
    let ds := r.takeWhile Char.isDigit
    !ds.isEmpty && (match r.dropWhile Char.isDigit with
                    | ':' :: _ => true
                    | _ => false)
  | _ => false

/-- Matcher at one position for `P\d+:\s*([\d.]+)mV\s*->\s*([\d.]+)`. -/
def pointAt (l : List Char) : Option (List Char × List Char) :=
  match l with
  | 'P' :: r =>
    let ds := r.takeWhile Char.isDigit
    if ds.isEmpty then none else
    match r.dropWhile Char.isDigit with
    | ':' :: r =>
      let r := r.dropWhile isPySpace
      let g1 := r.takeWhile isNumDot
      if g1.isEmpty then none else
      match dropLit "mV".data (r.dropWhile isNumDot) with
      | none => none
      | some r =>
        match dropLit "->".data (r.dropWhile isPySpace) with
        | none => none
        | some r =>
          let g2 := (r.dropWhile isPySpace).takeWhile isNumDot
          if g2.isEmpty then none else some (g1, g2)
    | _ => none
  | _ => none

/-- `re.search(r"P\d+:\s*([\d.]+)mV\s*->\s*([\d.]+)", line)`, groups 1, 2. -/
def pointSearch (s : String) : Option (String × String) :=
  (scanFirst pointAt s.data).map fun p => (String.mk p.1, String.mk p.2)

/-- `re.search(r"R2=([\d.]+)", line)`, group 1. -/
def r2Search (s : String) : Option String :=
  (scanFirst
    (fun l =>
      match dropLit "R2=".data l with
      | none => none
      | some r =>
        let g := r.takeWhile isNumDot
        if g.isEmpty then none else some g)
    s.data).map String.mk

/-! ### The loose quality regex of `QualityWidget.update_from_data`

`R2?[²=]?\s*[=:]?\s*([\d.]+)`.  The three optional elements can genuinely
backtrack (e.g. on `"R2"` the leading `2?` must give the digit back to the
final group), so the matcher tries each optional element present-first,
absent-second, nested in pattern order, exactly like the Python engine. -/

/-- Trailing part `\s*[=:]?\s*([\d.]+)` of the quality regex. -/
def qualTailC (l : List Char) : Option (List Char) :=
  let r := l.dropWhile isPySpace
  let withOpt :=
    match r with
    | c :: r2 =>
      if c = '=' || c = ':' then
        let g := (r2.dropWhile isPySpace).takeWhile isNumDot
        if g.isEmpty then none else some g
      else none
    | [] => none
  withOpt.orElse fun _ =>
    let g := (r.dropWhile isPySpace).takeWhile isNumDot
    if g.isEmpty then none else some g

/-- Optional `[²=]?` element of the quality regex, then its tail. -/
def qualTailB (l : List Char) : Option (List Char) :=
  (match l with
   | c :: r => if c = '²' || c = '=' then qualTailC r else none
   | [] => none).orElse fun _ => qualTailC l

/-- Matcher at one position for `R2?[²=]?\s*[=:]?\s*([\d.]+)`. -/
def qualAt (l : List Char) : Option (List Char) :=
  match l with
  | 'R' :: r =>
    (match r with
     | '2' :: r2 => qualTailB r2
     | _ => none).orElse fun _ => qualTailB r
  | _ => none

/-- `re.search(r"R2?[²=]?\s*[=:]?\s*([\d.]+)", data)`, group 1. -/
def qualSearch (s : String) : Option String :=
  (scanFirst qualAt s.data).map String.mk

/-! ### Data model: channels, per-channel calibration data -/

/-- The four sensor channels, with the short identifiers used by
`section_map` in `update_from_equations` (`ECL`, `ECH`, `PH`, `T`). -/
inductive Channel
  | ECL
  | ECH
  | PH
  | T
deriving DecidableEq

/-- `section_map`: exact section-header line of each channel. -/
def sectionHeader : Channel → String
  | .ECL => "--- EC LOW RANGE ---"
  | .ECH => "--- EC HIGH RANGE ---"
  | .PH => "--- pH ---"
  | .T => "--- TEMPERATURE ---"

/-- `line in section_map` lookup on a stripped line. -/
def headerOf (line : String) : Option Channel :=
  if line = "--- EC LOW RANGE ---" then some .ECL
  else if line = "--- EC HIGH RANGE ---" then some .ECH
  else if line = "--- pH ---" then some .PH
  else if line = "--- TEMPERATURE ---" then some .T
  else none

/-- One channel's entry of `self.sensor_data`:
`{'points': ..., 'C': ..., 'D': ..., 'R2': ...}`. -/
structure ChanData where
  points : List (ℚ × ℚ)
  coeffC : ℚ
  coeffD : ℚ
  r2 : ℚ
deriving DecidableEq

/-- The `self.sensor_data` dict of `CalibrationPlotWidget` (initially
empty; each channel key is absent or present). -/
structure SensorMap where
  ecl : Option ChanData
  ech : Option ChanData
  ph : Option ChanData
  t : Option ChanData
deriving DecidableEq

/-- The empty `sensor_data` dict set up in `CalibrationPlotWidget.__init__`. -/
def SensorMap.empty : SensorMap := ⟨none, none, none, none⟩

/-- Dict lookup `sensor_data.get(channel)`. -/
def SensorMap.get (m : SensorMap) : Channel → Option ChanData
  | .ECL => m.ecl
  | .ECH => m.ech
  | .PH => m.ph
  | .T => m.t

/-- Dict assignment `sensor_data[channel] = d`. -/
def SensorMap.set (m : SensorMap) : Channel → ChanData → SensorMap
  | .ECL, d => { m with ecl := some d }
  | .ECH, d => { m with ech := some d }
  | .PH, d => { m with ph := some d }
  | .T, d => { m with t := some d }

/-! ### `CalibrationPlotWidget.update_from_equations` -/

/-- The local loop state of `update_from_equations`: `current_sensor`, the
working `points`/`C`/`D`/`R2` accumulator, the `self.sensor_data` dict
being written, and (as the observable event content) the ordered trace of
dict writes performed. -/
structure EqAcc where
  cur : Option Channel
  points : List (ℚ × ℚ)
  coeffC : ℚ
  coeffD : ℚ
  r2 : ℚ
  sensorData : SensorMap
  writes : List (Channel × ChanData)
deriving DecidableEq

/-- `if current_sensor and points: self.sensor_data[current_sensor] = ...`. -/
def flushAcc (a : EqAcc) : EqAcc :=
  match a.cur with
  | some c =>
    if a.points.isEmpty then a
    else
      { a with
        sensorData := a.sensorData.set c ⟨a.points, a.coeffC, a.coeffD, a.r2⟩
        writes := a.writes ++ [(c, ⟨a.points, a.coeffC, a.coeffD, a.r2⟩)] }
  | none => a

/-- One iteration of the `for raw_line in full_response.split('\n')` loop:
`none` models the `ValueError` a `float(...)` call raises (the enclosing
`try` then abandons the loop). -/
def eqLineStep (a : EqAcc) (raw : String) : Option EqAcc :=
  match headerOf (pyStrip raw) with
  | some ch =>
    some { flushAcc a with cur := some ch, points := [], coeffC := 0, coeffD := 0, r2 := 0 }
  | none =>
    if a.cur = none then some a
    else if startsWithPy (pyStrip raw) "Equation:" then
      match equationSearch (pyStrip raw) with
      | some (g1, g2) =>
        match pyFloat g1, pyFloat g2 with
        | some c, some d => some { a with coeffC := c, coeffD := d }
        | _, _ => none
      | none => some a
    else if pointHead (pyStrip raw) then
      match pointSearch (pyStrip raw) with
      | some (g1, g2) =>
        match pyFloat g1, pyFloat g2 with
        | some v, some w => some { a with points := a.points ++ [(v, w)] }
        | _, _ => none
      | none => some a
    else if startsWithPy (pyStrip raw) "Quality:" then
      match r2Search (pyStrip raw) with
      | some g =>
        match pyFloat g with
        | some r => some { a with r2 := r }
        | none => none
      | none => some a
    else some a

/-- Run the parsing loop over the split lines; on an exception the partial
state reached so far is kept (the `except` branch only sets an error
label) and the final flush is skipped. -/
def eqLinesRun (a : EqAcc) : List String → EqAcc × Bool
  | [] => (a, true)
  | l :: rest =>
    match eqLineStep a l with
    | some a2 => eqLinesRun a2 rest
    | none => (a, false)

/-- `update_from_equations(full_response)` acting on the stored
`sensor_data` dict: returns the new dict, the ordered per-channel writes
(the content of the emitted equations event), and whether parsing ran to
completion without a `float` exception. -/
def update_from_equations (m : SensorMap) (full : String) :
    SensorMap × List (Channel × ChanData) × Bool :=
  match eqLinesRun ⟨none, [], 0, 0, 0, m, []⟩ ((splitOnCharL '\n' full.data).map String.mk) with
  | (a, true) => ((flushAcc a).sensorData, (flushAcc a).writes, true)
  | (a, false) => (a.sensorData, a.writes, false)

/-! ### `QualityWidget.update_from_data` -/

/-- Observable effects of the calibration window's data handler. -/
inductive CalEvent
  | equations (viaBlank : Bool) (writes : List (Channel × ChanData)) (ok : Bool)
  | statusCompact (entries : List (String × Bool × String × String))
  | readingLine (ec : Option String) (temp : Option String) (ph : Option String)
  | quality (ch : Channel) (r2 : ℚ)
  | calComplete
deriving DecidableEq

/-- One marker group of `update_from_data`: if the line satisfies the
marker condition and the loose R² regex finds a group, emit that channel's
quality update; a group whose text `float()` rejects raises (`none`). -/
def qualityFor (cond : Prop) [Decidable cond] (ch : Channel) (s : String) :
    Option (List CalEvent) :=
  if cond then
    match qualSearch s with
    | some g =>
      match pyFloat g with
      | some r => some [.quality ch r]
      | none => none
    | none => some []
  else some []

/-- Sequencing of the marker groups: once a group has raised, the later
groups do not run. -/
def qstep (acc : List CalEvent × Bool) (r : Option (List CalEvent)) : List CalEvent × Bool :=
  if acc.2 then
    match r with
    | some es => (acc.1 ++ es, true)
    | none => (acc.1, false)
  else acc

/-- `QualityWidget.update_from_data(data_string)`: the four independent
marker checks, in source order; the boolean is false when a `float` call
raised part-way (events produced before it are kept by the caller). -/
def update_from_data (s : String) : List CalEvent × Bool :=
  qstep
    (qstep
      (qstep
        (qstep ([], true) (qualityFor (containsSub s "EC_LOW:" ∨ containsSub s "EC Low") .ECL s))
        (qualityFor (containsSub s "EC_HIGH:" ∨ containsSub s "EC High") .ECH s))
      (qualityFor (containsSub s "pH:" ∧ containsSub s "R") .PH s))
    (qualityFor (containsSub s "TEMP:" ∨ containsSub s "Temperature") .T s)

/-! ### `CalibrationWindow.parse_status_compact` -/

/-- Everything after the first `:` of the line (`data.split(':', 1)[1]`);
`none` models the `IndexError` when there is no colon (caught and logged). -/
def afterFirstColon (s : String) : Option String :=
  match splitOnCharL ':' s.data with
  | _ :: rest :: more => some ⟨List.intercalate [':'] (rest :: more)⟩
  | _ => none

/-- One `<sensor>:<is_cal>,<points>,<r2>` segment: fewer than 2
colon-separated parts or fewer than 3 comma-separated values is skipped. -/
def parseSegment (seg : String) : Option (String × Bool × String × String) :=
  match (splitOnCharL ':' seg.data).map String.mk with
  | sensor :: value :: _ =>
    match (splitOnCharL ',' value.data).map String.mk with
    | isCal :: pts :: r2v :: _ => some (sensor, isCal = "1", pts, r2v)
    | _ => none
  | _ => none

/-- `parse_status_compact(data)`: the per-channel entries actually logged
(sensor id, calibrated flag, point count text, R² text), malformed
segments silently skipped. -/
def parse_status_compact (data : String) : List (String × Bool × String × String) :=
  match afterFirstColon data with
  | none => []
  | some statusStr => ((pySplit statusStr '|').map parseSegment).reduceOption

/-! ### `CalibrationWindow.handle_data` -/

/-- Decoder state of the calibration window: the `_in_equations` flag, the
`_equations_buffer` list, and the plot widget's `sensor_data` dict. -/
structure CalState where
  inEq : Bool
  buffer : List String
  sensorData : SensorMap
deriving DecidableEq

/-- Initial state set up in `__init__`: not in a block, empty buffer,
empty `sensor_data`. -/
def CalState.init : CalState := ⟨false, [], SensorMap.empty⟩

/-- `CalibrationWindow.parse_sensor_reading(data)` observable content: the
three regex extractions that drive the reading labels. -/
def parse_sensor_reading (data : String) : CalEvent :=
  .readingLine (ecSearchCal data) (tempSearchCal data) (phSearchCal data)

/-- `CalibrationWindow.handle_data(data)`: one fed line. -/
def calStep (st : CalState) (data : String) : CalState × List CalEvent :=
  if pyStrip data = "CALIBRATION EQUATIONS" then
    ({ st with inEq := true, buffer := [data] }, [])
  else if st.inEq then
    if containsSub (joinNL (st.buffer ++ [data])) "--- TEMPERATURE ---" ∧
        startsWithPy (pyStrip data) "Quality:" then
      (⟨false, [], (update_from_equations st.sensorData (joinNL (st.buffer ++ [data]))).1⟩,
        [.equations false
          (update_from_equations st.sensorData (joinNL (st.buffer ++ [data]))).2.1
          (update_from_equations st.sensorData (joinNL (st.buffer ++ [data]))).2.2])
    else if pyStrip data = "" ∧ containsSub (joinNL (st.buffer ++ [data])) "---" then
      (⟨false, [], (update_from_equations st.sensorData (joinNL (st.buffer ++ [data]))).1⟩,
        [.equations true
          (update_from_equations st.sensorData (joinNL (st.buffer ++ [data]))).2.1
          (update_from_equations st.sensorData (joinNL (st.buffer ++ [data]))).2.2])
    else ({ st with buffer := st.buffer ++ [data] }, [])
  else if startsWithPy data "STATUS_COMPACT:" then
    (st, [.statusCompact (parse_status_compact data)])
  else if containsSub data "EC:" ∧ (containsSub data "T:" ∨ containsSub data "Temp:") then
    (st, [parse_sensor_reading data])
  else if containsSub data "EC_LOW:" ∨ containsSub data "EC_HIGH:" ∨
      containsSub data "PH:" ∨ containsSub data "TEMP:" then
    (st, (update_from_data data).1 ++
      if (update_from_data data).2 ∧ containsSub data "R2=" then [.calComplete] else [])
  else (st, [])

/-- Feed a list of lines to the calibration decoder, collecting events. -/
def calFeed (st : CalState) : List String → CalState × List CalEvent
  | [] => (st, [])
  | l :: rest =>
    let r := calStep st l
    let r2 := calFeed r.1 rest
    (r2.1, r.2 ++ r2.2)

/-! ### `SensorReaderSegment1.handle_data` and `parse_sensor_readings` -/

/-- The `_reading_buffer` dict: each of the keys `ec`, `temp`, `ph` absent
or mapped to the matched field text. -/
structure RBuf where
  ec : Option String
  temp : Option String
  ph : Option String
deriving DecidableEq

/-- The empty buffer installed on a `SENSOR READINGS` header. -/
def RBuf.empty : RBuf := ⟨none, none, none⟩

/-- Decoder state of the reader window: `_reading_buffer` is `None`
(idle) or a partial field dict (collecting). -/
def RState := Option RBuf

instance : DecidableEq RState := inferInstanceAs (DecidableEq (Option RBuf))

/-- Observable effects of the reader window's data handler. -/
inductive REvent
  | reading (ec : Option ℚ) (temp : ℚ) (ph : Option ℚ)
  | parseFail
  | health
deriving DecidableEq

/-- `'NOT' in s.upper()`. -/
def hasNOT (s : String) : Prop := containsSub ⟨s.data.map Char.toUpper⟩ "NOT"

instance (s : String) : Decidable (hasNOT s) :=
  inferInstanceAs (Decidable (containsSub _ _))

/-- `parse_sensor_readings(buf)` up to the parsed values: `ec`/`ph` become
`none` on a `NOT CALIBRATED` marker and a float otherwise, `temp` is
always parsed as a float; a `float()` failure raises and is caught by the
function's own `except` (no reading is produced). -/
def parse_sensor_readings (b : RBuf) : Option REvent :=
  let ecStr := b.ec.getD "NOT CALIBRATED"
  let tempStr := b.temp.getD "0.0"
  let phStr := b.ph.getD "NOT CALIBRATED"
  let ecV : Option (Option ℚ) :=
    if hasNOT ecStr then some none else (pyFloat ecStr).map some
  let phV : Option (Option ℚ) :=
    if hasNOT phStr then some none else (pyFloat phStr).map some
  match ecV, pyFloat tempStr, phV with
  | some e, some t, some p => some (.reading e t p)
  | _, _, _ => none

/-- The three regex updates of `_reading_buffer` performed on one
collected line: each matched field overwrites its key, unmatched fields
are left alone. -/
def updateBuf (b : RBuf) (data : String) : RBuf :=
  { ec := match ecSearchReader data with
          | some v => some v
          | none => b.ec
    temp := match tempSearchReader data with
            | some v => some v
            | none => b.temp
    ph := match phSearchReader data with
          | some v => some v
          | none => b.ph }

/-- `all(k in self._reading_buffer for k in ("ec", "temp", "ph"))`. -/
def bufComplete (b : RBuf) : Prop := b.ec.isSome ∧ b.temp.isSome ∧ b.ph.isSome

instance (b : RBuf) : Decidable (bufComplete b) := by
  unfold bufComplete
  infer_instance

/-- `SensorReaderSegment1.handle_data(data)`: one fed line. -/
def readerStep (st : RState) (data : String) : RState × List REvent :=
  if pyStrip data = "SENSOR READINGS" then
    (some RBuf.empty, [])
  else
    match st with
    | some b =>
      if bufComplete (updateBuf b data) then
        (none,
         match parse_sensor_readings (updateBuf b data) with
         | some ev => [ev]
         | none => [.parseFail])
      else (some (updateBuf b data), [])
    | none =>
      if containsSub data "DIAG" ∨ containsSub data "ADC:" ∨ containsSub data "mV:" then
        (none, [.health])
      else (none, [])

/-- Feed a list of lines to the reader decoder, collecting events. -/
def readerFeed (st : RState) : List String → RState × List REvent
  | [] => (st, [])
  | l :: rest =>
    let r := readerStep st l
    let r2 := readerFeed r.1 rest
    (r2.1, r.2 ++ r2.2)

/-! ### `SerialWorker`: send path and reconnect backoff -/

/-- Status events of the serial worker. -/
inductive WorkerEvent
  | connected
  | connectionFailed
  | connectionLost
  | sendError
deriving DecidableEq

/-- `SerialWorker.send_command(cmd)` of `Calibrator_V13.py`, as a function
of whether a port is currently open and whether the `write` call raises:
returns the boolean result, the emitted events, whether the port is open
afterwards, and the bytes written. -/
def send_command_cal (portOpen : Bool) (writeRaises : Bool) (cmd : String) :
    Bool × List WorkerEvent × Bool × Option String :=
  if portOpen then
    if writeRaises then (false, [.sendError], portOpen, none)
    else (true, [], portOpen, some (cmd ++ "\n"))
  else (false, [], portOpen, none)

/-- `SerialWorker.send_command(cmd)` of `SensorReader_V12.py`: identical
except that the bare `except: pass` emits no error event. -/
def send_command_reader (portOpen : Bool) (writeRaises : Bool) (cmd : String) :
    Bool × List WorkerEvent × Bool × Option String :=
  if portOpen then
    if writeRaises then (false, [], portOpen, none)
    else (true, [], portOpen, some (cmd ++ "\n"))
  else (false, [], portOpen, none)

/-- The reconnect part of `SerialWorker.run`, driven by a script of
`connect()` outcomes: yields the list of `time.sleep(reconnect_delay)`
durations, one per failed attempt (the sleep before the following
attempt).  `connect` resets `reconnect_delay` to 1 on success; after the
sleep the delay is doubled and capped at `max_reconnect_delay = 30`. -/
def backoffSleeps (delay : ℕ) : List Bool → List ℕ
  | [] => []
  | true :: rest => backoffSleeps 1 rest
  | false :: rest => delay :: backoffSleeps (min (delay * 2) 30) rest

/-- The `reconnect_delay` value after a script of `connect()` outcomes,
starting from the given value (constructor initialises it to 1). -/
def delayAfter (delay : ℕ) : List Bool → ℕ
  | [] => delay
  | true :: rest => delayAfter 1 rest
  | false :: rest => delayAfter (min (delay * 2) 30) rest

/-- The read half of `SerialWorker.run`: each raw read is decoded,
stripped, and forwarded only if non-empty. -/
def deliveredLines (raws : List String) : List String :=
  raws.filterMap fun raw =>
    let l := pyStrip raw
    if l = "" then none else some l

/-! ### Specification-side descriptions of the equations block

These are *not* translations of the source: they describe, section by
section, what a `CALIBRATION EQUATIONS` response should yield, and the
theorems below compare the monolithic line-scanning parser against them. -/

/-- Per-section working data (one channel's coefficient, intercept,
points, R²). -/
structure SecAcc where
  points : List (ℚ × ℚ)
  coeffC : ℚ
  coeffD : ℚ
  r2 : ℚ
deriving DecidableEq

/-- Effect of one body line on a single section's data, with `none` for a
`float()` failure: an `Equation:` line sets the coefficients, a `P<n>:`
line appends one point, a `Quality:` line sets R². -/
def secStep (q : SecAcc) (raw : String) : Option SecAcc :=
  if startsWithPy (pyStrip raw) "Equation:" then
    match equationSearch (pyStrip raw) with
    | some (g1, g2) =>
      match pyFloat g1, pyFloat g2 with
      | some c, some d => some { q with coeffC := c, coeffD := d }
      | _, _ => none
    | none => some q
  else if pointHead (pyStrip raw) then
    match pointSearch (pyStrip raw) with
    | some (g1, g2) =>
      match pyFloat g1, pyFloat g2 with
      | some v, some w => some { q with points := q.points ++ [(v, w)] }
      | _, _ => none
    | none => some q
  else if startsWithPy (pyStrip raw) "Quality:" then
    match r2Search (pyStrip raw) with
    | some g =>
      match pyFloat g with
      | some r => some { q with r2 := r }
      | none => none
    | none => some q
  else some q

/-- Fold a whole section body, line by line. -/
def secRun (q : SecAcc) : List String → Option SecAcc
  | [] => some q
  | l :: rest =>
    match secStep q l with
    | some q2 => secRun q2 rest
    | none => none

/-- The data a section body denotes, starting from the reset accumulator. -/
def sectionData (body : List String) : Option SecAcc := secRun ⟨[], 0, 0, 0⟩ body

/-- Split a response into the lines before the first section header and
the list of (channel, body-lines) chunks, by the section-header lines. -/
def sectionsSplit : List String → List String × List (Channel × List String)
  | [] => ([], [])
  | l :: rest =>
    match headerOf (pyStrip l) with
    | some c => ([], (c, (sectionsSplit rest).1) :: (sectionsSplit rest).2)
    | none => (l :: (sectionsSplit rest).1, (sectionsSplit rest).2)

/-- A line that successfully appends a calibration point when scanned
inside a section: not a header, not an `Equation:` line, `P<n>:`-shaped,
with both captured numbers parseable. -/
def appendsPoint (raw : String) : Prop :=
  let line := pyStrip raw
  headerOf line = none ∧ ¬startsWithPy line "Equation:" ∧ pointHead line = true ∧
    (match pointSearch line with
     | some (g1, g2) => (pyFloat g1).isSome && (pyFloat g2).isSome
     | none => false) = true

instance (raw : String) : Decidable (appendsPoint raw) := by
  unfold appendsPoint
  infer_instance

/-- A well-formed interior line of an equations block: no embedded
newline, not blank once stripped, not a block restart, not a section
header, and not containing the temperature-header text that arms the
block-complete heuristic. -/
def goodBodyLine (l : String) : Prop :=
  '\n' ∉ l.data ∧ pyStrip l ≠ "" ∧ pyStrip l ≠ "CALIBRATION EQUATIONS" ∧
    headerOf (pyStrip l) = none ∧ ¬containsSub l "--- TEMPERATURE ---"

instance (l : String) : Decidable (goodBodyLine l) := by
  unfold goodBodyLine
  exact instDecidableAnd

/-- The full line sequence of a four-section equations response. -/
def fourSectionResponse (b1 b2 b3 b4 : List String) : List String :=
  "CALIBRATION EQUATIONS" ::
    (sectionHeader .ECL :: b1) ++ (sectionHeader .ECH :: b2) ++
      (sectionHeader .PH :: b3) ++ (sectionHeader .T :: b4)

/-- The per-channel entries an equations event should carry: the sections
in response order, those with at least one point kept. -/
def expectedWrites (l : List (Channel × SecAcc)) : List (Channel × ChanData) :=
  l.filterMap fun p =>
    if p.2.points.isEmpty then none
    else some (p.1, ⟨p.2.points, p.2.coeffC, p.2.coeffD, p.2.r2⟩)

/-! ### Specification-side description of the reading block -/

/-- The buffer after a sequence of collected lines. -/
def bufAfter (b : RBuf) (lines : List String) : RBuf := lines.foldl updateBuf b

/-- The last value a field extractor produces over a sequence of lines
(the value a completed block reports for that field). -/
def lastField (f : String → Option String) (lines : List String) : Option String :=
  (lines.filterMap f).getLast?

/-! ### General lemmas: split/join round trips -/

theorem intercalate_splitOnCharL (c : Char) (l : List Char) :
    List.intercalate [c] (splitOnCharL c l) = l :=
  List.intercalate_splitOn l c

theorem splitOnCharL_intercalate (c : Char) {xss : List (List Char)} (h : xss ≠ [])
    (hx : ∀ xs ∈ xss, c ∉ xs) :
    splitOnCharL c (List.intercalate [c] xss) = xss :=
  List.splitOn_intercalate xss c hx h

theorem intercalate_cons₂ (c : Char) (x y : List Char) (ys : List (List Char)) :
    List.intercalate [c] (x :: y :: ys) = x ++ [c] ++ List.intercalate [c] (y :: ys) := by
  simp [List.intercalate, List.intersperse_cons₂]

/-! ### General lemmas: substring containment across joined lines -/

theorem infix_append_cases {α : Type} {p a b : List α} (h : p <:+: a ++ b) :
    p <:+: a ∨ p <:+: b ∨ ∃ p1 p2, p = p1 ++ p2 ∧ p1 ≠ [] ∧ p2 ≠ [] ∧ p2 <+: b := by
  obtain ⟨s, t, hst⟩ := h
  rw [List.append_assoc] at hst
  rcases List.append_eq_append_iff.1 hst with ⟨k, hk1, hk2⟩ | ⟨k, hk1, hk2⟩
  · rcases List.append_eq_append_iff.1 hk2 with ⟨m, hm1, hm2⟩ | ⟨m, hm1, hm2⟩
    · left
      exact ⟨s, m, by rw [hk1, hm1, List.append_assoc]⟩
    · rcases eq_or_ne k [] with rfl | hknil
      · right; left
        exact ⟨[], t, by simpa [hm1] using hm2.symm⟩
      · rcases eq_or_ne m [] with rfl | hmnil
        · left
          refine ⟨s, [], ?_⟩
          rw [hk1, hm1]
          simp
        · right; right
          exact ⟨k, m, hm1, hknil, hmnil, ⟨t, hm2.symm⟩⟩
  · right; left
    exact ⟨k, t, by rw [hk2, List.append_assoc]⟩

theorem infix_cons_not_mem {α : Type} {p z : List α} {c : α}
    (h : p <:+: c :: z) (hc : c ∉ p) (hp : p ≠ []) : p <:+: z := by
  rcases List.infix_cons_iff.1 h with h1 | h1
  · rcases p with _ | ⟨x, p'⟩
    · exact absurd rfl hp
    · obtain ⟨rfl, -⟩ := List.cons_prefix_cons.1 h1
      exact absurd (List.mem_cons_self x p') hc
  · exact h1

theorem not_infix_of_cons_not_mem {α : Type} {p z : List α} {c : α}
    (hc : c ∉ p) (hp : p ≠ []) (hz : ¬p <:+: z) : ¬p <:+: c :: z :=
  fun h => hz (infix_cons_not_mem h hc hp)

theorem infix_intercalate_mem {p : List Char} {c : Char} :
    ∀ {ls : List (List Char)}, p <:+: List.intercalate [c] ls → c ∉ p → p ≠ [] →
      ∃ l ∈ ls, p <:+: l := by
  intro ls
  induction ls with
  | nil =>
    intro h _ hp
    rw [show List.intercalate [c] ([] : List (List Char)) = [] from rfl] at h
    exact absurd (List.eq_nil_of_infix_nil h) hp
  | cons x xs ih =>
    intro h hc hp
    cases xs with
    | nil =>
      rw [show List.intercalate [c] [x] = x by simp [List.intercalate]] at h
      exact ⟨x, List.mem_cons_self x [], h⟩
    | cons y ys =>
      rw [intercalate_cons₂, List.append_assoc] at h
      rcases infix_append_cases h with h1 | h1 | ⟨p1, p2, rfl, hp1, hp2, hpre⟩
      · exact ⟨x, List.mem_cons_self x _, h1⟩
      · have h2 : p <:+: List.intercalate [c] (y :: ys) :=
          infix_cons_not_mem h1 hc hp
        obtain ⟨l, hl, hpl⟩ := ih h2 hc hp
        exact ⟨l, List.mem_cons_of_mem _ hl, hpl⟩
      · exfalso
        rcases p2 with _ | ⟨q, p2'⟩
        · exact hp2 rfl
        · obtain ⟨rfl, -⟩ := List.cons_prefix_cons.1 hpre
          exact hc (by simp)

theorem mem_infix_intercalate {p l : List Char} {c : Char} :
    ∀ {ls : List (List Char)}, l ∈ ls → p <:+: l → p <:+: List.intercalate [c] ls := by
  intro ls
  induction ls with
  | nil => intro h; exact absurd h (List.not_mem_nil _)
  | cons x xs ih =>
    intro hmem hpl
    cases xs with
    | nil =>
      rw [List.mem_singleton] at hmem
      subst hmem
      rw [show List.intercalate [c] [l] = l by simp [List.intercalate]]
      exact hpl
    | cons y ys =>
      rw [intercalate_cons₂]
      rcases List.mem_cons.1 hmem with rfl | hmem2
      · exact hpl.trans
          (((List.prefix_append l [c]).trans
            (List.prefix_append (l ++ [c]) _)).isInfix)
      · exact (ih hmem2 hpl).trans
          ((List.suffix_append (x ++ [c]) _).isInfix)

/-- `containsSub` over a newline-join holds iff some line contains the
pattern, for a non-empty pattern without a newline. -/
theorem containsSub_joinNL {pat : String} (hnl : '\n' ∉ pat.data) (hne : pat.data ≠ [])
    (ls : List String) :
    containsSub (joinNL ls) pat ↔ ∃ l ∈ ls, containsSub l pat := by
  constructor
  · intro h
    obtain ⟨l, hl, hpl⟩ := infix_intercalate_mem h hnl hne
    obtain ⟨l', hl', rfl⟩ := List.mem_map.1 hl
    exact ⟨l', hl', hpl⟩
  · rintro ⟨l, hl, hpl⟩
    exact mem_infix_intercalate (List.mem_map_of_mem _ hl) hpl

/-! ### General lemmas: `strip` idempotence -/

theorem dropWhile_idem (p : α → Bool) (l : List α) :
    (l.dropWhile p).dropWhile p = l.dropWhile p := by
  induction l with
  | nil => rfl
  | cons a l ih =>
    by_cases h : p a
    · rw [List.dropWhile_cons_of_pos h]
      exact ih
    · rw [List.dropWhile_cons_of_neg h, List.dropWhile_cons_of_neg h]

theorem rstrip_is_le (p : α → Bool) (l : List α) :
    (l.reverse.dropWhile p).reverse <+: l := by
  have h := List.dropWhile_suffix (l := l.reverse) p
  have h2 := List.reverse_prefix.2 h
  rwa [List.reverse_reverse] at h2

theorem dropWhile_eq_cons_neg (p : α → Bool) :
    ∀ {l : List α} {a : α} {r : List α}, l.dropWhile p = a :: r → p a = false := by
  intro l
  induction l with
  | nil => intro a r h; exact absurd h (by simp)
  | cons b bs ih =>
    intro a r h
    by_cases hb : p b
    · rw [List.dropWhile_cons_of_pos hb] at h
      exact ih h
    · rw [List.dropWhile_cons_of_neg hb] at h
      obtain ⟨rfl, -⟩ := List.cons.injEq b bs a r ▸ h
      exact eq_false_of_ne_true hb

theorem dropWhile_of_prefix_dropWhile (p : α → Bool) {x l : List α}
    (hpre : x <+: l.dropWhile p) : x.dropWhile p = x := by
  rcases x with _ | ⟨a, x'⟩
  · rfl
  · obtain ⟨t, ht⟩ := hpre
    have h : l.dropWhile p = a :: (x' ++ t) := ht.symm
    have ha := dropWhile_eq_cons_neg p h
    rw [List.dropWhile_cons_of_neg (by simp [ha])]

theorem stripL_idem (l : List Char) : stripL (stripL l) = stripL l := by
  unfold stripL
  have hz : List.dropWhile isPySpace
      ((List.dropWhile isPySpace (l.dropWhile isPySpace).reverse).reverse)
      = (List.dropWhile isPySpace (l.dropWhile isPySpace).reverse).reverse :=
    dropWhile_of_prefix_dropWhile isPySpace
      (rstrip_is_le isPySpace (l.dropWhile isPySpace))
  rw [hz, List.reverse_reverse, dropWhile_idem]

theorem pyStrip_idem (s : String) : pyStrip (pyStrip s) = pyStrip s :=
  congrArg String.mk (stripL_idem s.data)

/-! ### General lemmas: feeding line lists -/

theorem calFeed_append (st : CalState) (xs ys : List String) :
    calFeed st (xs ++ ys) =
      ((calFeed (calFeed st xs).1 ys).1,
        (calFeed st xs).2 ++ (calFeed (calFeed st xs).1 ys).2) := by
  induction xs generalizing st with
  | nil => simp [calFeed]
  | cons l rest ih =>
    simp only [List.cons_append, calFeed, List.append_eq, ih, List.append_assoc]

theorem readerFeed_append (st : RState) (xs ys : List String) :
    readerFeed st (xs ++ ys) =
      ((readerFeed (readerFeed st xs).1 ys).1,
        (readerFeed st xs).2 ++ (readerFeed (readerFeed st xs).1 ys).2) := by
  induction xs generalizing st with
  | nil => simp [readerFeed]
  | cons l rest ih =>
    simp only [List.cons_append, readerFeed, List.append_eq, ih, List.append_assoc]

/-! ### Backoff arithmetic -/

theorem min_double_cap (k : ℕ) : min (min (2 ^ k) 30 * 2) 30 = min (2 ^ (k + 1)) 30 := by
  rw [pow_succ]
  omega

theorem backoffSleeps_formula_aux (n : ℕ) :
    ∀ k : ℕ, backoffSleeps (min (2 ^ k) 30) (List.replicate n false)
      = (List.range n).map (fun i => min (2 ^ (k + i)) 30) := by
  induction n with
  | zero => intro k; rfl
  | succ n ih =>
    intro k
    rw [List.replicate_succ, backoffSleeps, min_double_cap, ih (k + 1),
      List.range_succ_eq_map, List.map_cons, List.map_map]
    refine congrArg₂ _ (by rw [Nat.add_zero]) ?_
    refine List.map_congr_left fun i _ => ?_
    have h : k + 1 + i = k + (i + 1) := by omega
    simp [Function.comp, h]

theorem backoffSleeps_formula (n : ℕ) :
    backoffSleeps 1 (List.replicate n false)
      = (List.range n).map (fun i => min (2 ^ i) 30) := by
  have h := backoffSleeps_formula_aux n 0
  simpa using h

theorem delayAfter_formula_aux (n : ℕ) :
    ∀ k : ℕ, delayAfter (min (2 ^ k) 30) (List.replicate n false) = min (2 ^ (k + n)) 30 := by
  induction n with
  | zero => intro k; rfl
  | succ n ih =>
    intro k
    rw [List.replicate_succ, delayAfter, min_double_cap, ih (k + 1)]
    refine congrArg₂ _ (congrArg _ ?_) rfl
    omega

/-! ## Claim theorems -/

/-- C3 counterexample: after `N = 1` consecutive failed connect attempts
from the initial state, the delay actually slept before the 2nd attempt is
1 time unit, not `min(2^1, 30) = 2` as the claim states. -/
theorem backoff_claim_counterexample :
    backoffSleeps 1 (List.replicate 1 false) = [1] ∧
      min (2 ^ 1) 30 = 2 ∧ (1 : ℕ) ≠ 2 := by
  exact ⟨rfl, rfl, by omega⟩

/-- C3 (amended): after `N ≥ 1` consecutive failed connect attempts from
the initial state, the delay slept before the `(N+1)`th attempt is
`min(2^(N-1), 30)` (the floor is 1, reached at `N = 1`); equivalently the
stored `reconnect_delay` after `N` failures is `min(2^N, 30)`; and after a
successful connect the sleep following the next failure is again 1. -/
theorem backoff_delay_amended :
    (∀ N : ℕ, 1 ≤ N →
      (backoffSleeps 1 (List.replicate N false)).getLast? = some (min (2 ^ (N - 1)) 30)) ∧
    (∀ N : ℕ, delayAfter 1 (List.replicate N false) = min (2 ^ N) 30) ∧
    (∀ (d : ℕ) (rest : List Bool), (backoffSleeps d (true :: false :: rest)).head? = some 1) := by
  refine ⟨fun N hN => ?_, fun N => ?_, fun d rest => rfl⟩
  · obtain ⟨m, rfl⟩ : ∃ m, N = m + 1 := ⟨N - 1, by omega⟩
    rw [backoffSleeps_formula, List.range_succ, List.map_append]
    simp [List.getLast?_concat]
  · have h := delayAfter_formula_aux N 0
    simpa using h

/-- C3 witness: instantiation at `N = 6` (past the cap) and a reset
scenario. -/
theorem backoff_delay_amended_witness :
    (backoffSleeps 1 (List.replicate 6 false)).getLast? = some (min (2 ^ 5) 30) ∧
      delayAfter 1 (List.replicate 6 false) = min (2 ^ 6) 30 ∧
      (backoffSleeps 7 [true, false]).head? = some 1 :=
  ⟨backoff_delay_amended.1 6 (by omega), backoff_delay_amended.2.1 6,
    backoff_delay_amended.2.2 7 []⟩

/-- C4 counterexample: with a transport open and the write raising,
`send_command` in `Calibrator_V13.py` emits only a send-error event,
leaves the port open, and emits no connection-lost status (no downgrade);
the `SensorReader_V12.py` variant emits nothing at all. -/
theorem send_write_failure_counterexample :
    send_command_cal true true "READ" = (false, [WorkerEvent.sendError], true, none) ∧
      (WorkerEvent.connectionLost ∈ (send_command_cal true true "READ").2.1 → False) ∧
      send_command_reader true true "READ" = (false, [], true, none) := by
  exact ⟨rfl, by decide, rfl⟩

/-- C4 (amended): `send_command` returns false immediately, with no events
and no write, when no transport is open; with an open transport and a
successful write it writes `command + "\n"` and returns true; a write
failure returns false (reported as an error event in the calibrator
variant, silently swallowed in the reader variant) and neither closes the
transport nor emits a connection-lost status — the downgrade to reconnect
happens only in the read loop. -/
theorem send_command_amended :
    ∀ (w : Bool) (cmd : String),
      (send_command_cal false w cmd = (false, [], false, none) ∧
        send_command_reader false w cmd = (false, [], false, none)) ∧
      (send_command_cal true false cmd = (true, [], true, some (cmd ++ "\n")) ∧
        send_command_reader true false cmd = (true, [], true, some (cmd ++ "\n"))) ∧
      (send_command_cal true true cmd = (false, [WorkerEvent.sendError], true, none) ∧
        send_command_reader true true cmd = (false, [], true, none)) := by
  intro w cmd
  exact ⟨⟨rfl, rfl⟩, ⟨rfl, rfl⟩, rfl, rfl⟩

theorem readerStep_header (st : RState) :
    readerStep st "SENSOR READINGS" = (some RBuf.empty, []) := by
  unfold readerStep
  rw [if_pos (show pyStrip "SENSOR READINGS" = "SENSOR READINGS" from rfl)]

/-- C7: feeding a `SENSOR READINGS` header while a partial (or any)
collection is in progress discards it without emitting any event and
starts a fresh collection with an empty field map; the same happens from
the idle state. -/
theorem reader_header_resets :
    (∀ b : RBuf, readerStep (some b) "SENSOR READINGS" = (some RBuf.empty, [])) ∧
      readerStep none "SENSOR READINGS" = (some RBuf.empty, []) :=
  ⟨fun b => readerStep_header (some b), readerStep_header none⟩

/-! ### C9: only quality events come out of `update_from_data` -/

theorem qualityFor_events {cond : Prop} [Decidable cond] {ch : Channel} {s : String}
    {r : List CalEvent} (h : qualityFor cond ch s = some r) :
    ∀ e ∈ r, ∃ a b, e = CalEvent.quality a b := by
  unfold qualityFor at h
  split_ifs at h
  · split at h
    · split at h
      · obtain rfl := Option.some_inj.1 h
        intro e he
        rw [List.mem_singleton] at he
        exact ⟨ch, _, he⟩
      · exact absurd h (by simp)
    · obtain rfl := Option.some_inj.1 h
      intro e he
      exact absurd he (List.not_mem_nil e)
  · obtain rfl := Option.some_inj.1 h
    intro e he
    exact absurd he (List.not_mem_nil e)

theorem qstep_events {acc : List CalEvent × Bool} {r : Option (List CalEvent)}
    {e : CalEvent} (h : e ∈ (qstep acc r).1) :
    e ∈ acc.1 ∨ ∃ es, r = some es ∧ e ∈ es := by
  unfold qstep at h
  split_ifs at h
  · rcases r with _ | es
    · exact Or.inl h
    · rcases List.mem_append.1 h with h1 | h1
      · exact Or.inl h1
      · exact Or.inr ⟨es, rfl, h1⟩
  · exact Or.inl h

theorem update_from_data_events {s : String} {e : CalEvent}
    (h : e ∈ (update_from_data s).1) : ∃ a b, e = CalEvent.quality a b := by
  unfold update_from_data at h
  rcases qstep_events h with h | ⟨es, hes, he⟩
  · rcases qstep_events h with h | ⟨es, hes, he⟩
    · rcases qstep_events h with h | ⟨es, hes, he⟩
      · rcases qstep_events h with h | ⟨es, hes, he⟩
        · exact absurd h (List.not_mem_nil e)
        · exact qualityFor_events hes e he
      · exact qualityFor_events hes e he
    · exact qualityFor_events hes e he
  · exact qualityFor_events hes e he

theorem calStep_no_blank_flush {st : CalState} {data : String}
    (h : pyStrip data ≠ "") (w : List (Channel × ChanData)) (ok : Bool) :
    CalEvent.equations true w ok ∉ (calStep st data).2 := by
  intro hmem
  unfold calStep at hmem
  split_ifs at hmem with h1 h2 h3 h4 h5 h6 h7 h8
  · exact absurd hmem (List.not_mem_nil _)
  · rw [List.mem_singleton] at hmem
    exact CalEvent.noConfusion hmem fun hb _ _ => Bool.noConfusion hb
  · exact absurd h4.1 h
  · exact absurd hmem (List.not_mem_nil _)
  · rw [List.mem_singleton] at hmem
    exact CalEvent.noConfusion hmem
  · rw [List.mem_singleton] at hmem
    rw [show parse_sensor_reading data
        = CalEvent.readingLine (ecSearchCal data) (tempSearchCal data) (phSearchCal data)
      from rfl] at hmem
    exact CalEvent.noConfusion hmem
  · rcases List.mem_append.1 hmem with h9 | h9
    · obtain ⟨a, b, hab⟩ := update_from_data_events h9
      exact CalEvent.noConfusion hab
    · rw [List.mem_singleton] at h9
      exact CalEvent.noConfusion h9
  · rcases List.mem_append.1 hmem with h9 | h9
    · obtain ⟨a, b, hab⟩ := update_from_data_events h9
      exact CalEvent.noConfusion hab
    · exact absurd h9 (List.not_mem_nil _)
  · exact absurd hmem (List.not_mem_nil _)

theorem calFeed_no_blank_flush {lines : List String}
    (h : ∀ l ∈ lines, pyStrip l ≠ "") (st : CalState)
    (w : List (Channel × ChanData)) (ok : Bool) :
    CalEvent.equations true w ok ∉ (calFeed st lines).2 := by
  induction lines generalizing st with
  | nil => exact List.not_mem_nil _
  | cons l rest ih =>
    intro hmem
    rw [show calFeed st (l :: rest)
        = ((calFeed (calStep st l).1 rest).1,
            (calStep st l).2 ++ (calFeed (calStep st l).1 rest).2) from rfl] at hmem
    rcases List.mem_append.1 hmem with h1 | h1
    · exact calStep_no_blank_flush (h l (List.mem_cons_self l rest)) w ok h1
    · exact ih (fun x hx => h x (List.mem_cons_of_mem l hx)) (calStep st l).1 h1

/-- C9: every line the worker loop forwards is already stripped and
non-empty, and consequently the equations decoder's blank-line end-of-block
fallback can never fire on lines that came through the worker, from any
decoder state. -/
theorem delivered_lines_clean_no_blank_flush :
    (∀ raws : List String, ∀ l ∈ deliveredLines raws, pyStrip l = l ∧ l ≠ "") ∧
    (∀ (st : CalState) (raws : List String) (w : List (Channel × ChanData)) (ok : Bool),
      CalEvent.equations true w ok ∉ (calFeed st (deliveredLines raws)).2) := by
  have hmain : ∀ raws : List String, ∀ l ∈ deliveredLines raws, pyStrip l = l ∧ l ≠ "" := by
    intro raws l hl
    obtain ⟨raw, -, hraw⟩ := List.mem_filterMap.1 hl
    simp only at hraw
    split_ifs at hraw with hempty
    obtain rfl := Option.some_inj.1 hraw
    exact ⟨pyStrip_idem raw, hempty⟩
  refine ⟨hmain, fun st raws w ok => ?_⟩
  refine calFeed_no_blank_flush (fun l hl => ?_) st w ok
  obtain ⟨h1, h2⟩ := hmain raws l hl
  rw [h1]
  exact h2

/-- C9 witness: a concrete read batch with whitespace-only and messy reads. -/
theorem delivered_lines_clean_no_blank_flush_witness :
    (pyStrip " EC: 1 " = "EC: 1" ∧ ("EC: 1" : String) ≠ "") ∧
      CalEvent.equations true [] true ∉
        (calFeed CalState.init (deliveredLines ["  ", " EC: 1 ", ""])).2 :=
  ⟨delivered_lines_clean_no_blank_flush.1 ["  ", " EC: 1 ", ""] "EC: 1" (by decide),
    delivered_lines_clean_no_blank_flush.2 CalState.init ["  ", " EC: 1 ", ""] [] true⟩

/-! ### C8: buffer/state invariant -/

/-- The decoder-state invariant of the calibration window: the equations
buffer is non-empty only while `_in_equations` is set. -/
def calInv (st : CalState) : Prop := st.inEq = false → st.buffer = []

theorem calStep_inv {st : CalState} (hinv : calInv st) (l : String) :
    calInv (calStep st l).1 := by
  unfold calStep
  split_ifs with h1 h2 h3 h4 h5 h6 h7 h8
  · intro hfalse
    exact Bool.noConfusion hfalse
  · intro _
    rfl
  · intro _
    rfl
  · intro hfalse
    rw [show ({ st with buffer := st.buffer ++ [l] } : CalState).inEq = st.inEq from rfl]
      at hfalse
    rw [h2] at hfalse
    exact Bool.noConfusion hfalse
  · exact hinv
  · exact hinv
  · exact hinv
  · exact hinv
  · exact hinv

theorem readerStep_some_emit {b : RBuf} {l : String}
    (hne : (readerStep (some b) l).2 ≠ []) : (readerStep (some b) l).1 = none := by
  simp only [readerStep] at hne ⊢
  split_ifs at hne ⊢ with h1 h2
  · exact absurd rfl hne
  · rfl
  · exact absurd rfl hne

theorem calFeed_inv (lines : List String) :
    calInv (calFeed CalState.init lines).1 := by
  have hgen : ∀ (st : CalState), calInv st → calInv (calFeed st lines).1 := by
    induction lines with
    | nil => intro st h; exact h
    | cons l rest ih =>
      intro st h
      exact ih (calStep st l).1 (calStep_inv h l)
  exact hgen CalState.init fun _ => rfl

/-- C8: (1) in every state reachable by feeding any line sequence from the
initial state, the equations buffer is non-empty only while the decoder is
mid-block, (2) every single-step transition of the equations decoder from
mid-block back to idle — normal completion or anomalous input — leaves the
buffer empty, and (3) whenever the reading decoder emits anything from a
collecting state on a non-header line, the field map is released. -/
theorem decoder_buffer_invariant :
    (∀ lines : List String,
      (calFeed CalState.init lines).1.inEq = false → (calFeed CalState.init lines).1.buffer = []) ∧
    (∀ (st : CalState) (l : String),
      st.inEq = true → (calStep st l).1.inEq = false → (calStep st l).1.buffer = []) ∧
    (∀ (b : RBuf) (l : String),
      (readerStep (some b) l).2 ≠ [] → (readerStep (some b) l).1 = none) := by
  refine ⟨fun lines => calFeed_inv lines, fun st l hst => ?_, fun b l => readerStep_some_emit⟩
  exact calStep_inv (fun h => absurd h (by simp [hst])) l

/-! ### C5: inline quality lines -/

theorem qualityFor_of_search {s : String} {g : String} {r : ℚ}
    (hq : qualSearch s = some g) (hf : pyFloat g = some r)
    (cond : Prop) [Decidable cond] (ch : Channel) :
    qualityFor cond ch s = some (if cond then [CalEvent.quality ch r] else []) := by
  unfold qualityFor
  split_ifs with hc
  · simp only [hq, hf]
  · rfl

theorem update_from_data_of_search {s : String} {g : String} {r : ℚ}
    (hq : qualSearch s = some g) (hf : pyFloat g = some r) :
    (update_from_data s).1 =
      (if containsSub s "EC_LOW:" ∨ containsSub s "EC Low"
        then [CalEvent.quality .ECL r] else []) ++
      (if containsSub s "EC_HIGH:" ∨ containsSub s "EC High"
        then [CalEvent.quality .ECH r] else []) ++
      (if containsSub s "pH:" ∧ containsSub s "R"
        then [CalEvent.quality .PH r] else []) ++
      (if containsSub s "TEMP:" ∨ containsSub s "Temperature"
        then [CalEvent.quality .T r] else []) ∧
    (update_from_data s).2 = true := by
  unfold update_from_data
  rw [qualityFor_of_search hq hf, qualityFor_of_search hq hf,
    qualityFor_of_search hq hf, qualityFor_of_search hq hf]
  simp [qstep]

/-- C5 counterexample: the line `"pH: 7.02 R2=0.9991"` fed outside any
block matches none of the dispatch conditions of `handle_data` (in
particular it does not contain the uppercase tag `"PH:"`), so no event at
all is emitted — contradicting the claim that it emits
`QualityUpdateEvent(pH, 0.9991)`. -/
theorem inline_quality_counterexample :
    calStep CalState.init "pH: 7.02 R2=0.9991" = (CalState.init, []) := by decide

/-- C5 (amended): while not mid-block, the quality path runs only for
lines that contain one of the uppercase tags `EC_LOW:`, `EC_HIGH:`, `PH:`,
`TEMP:` (and are not `STATUS_COMPACT:`-prefixed, not a block header, and
not matched by the sensor-reading branch).  For such a line, with `r` the
decimal number extracted by the loose R² regex, a quality update for a
channel is emitted exactly per `update_from_data`'s marker conditions:
`EC_LOW:`/`EC Low` → EC-low, `EC_HIGH:`/`EC High` → EC-high, `pH:`
together with an `R` → pH, `TEMP:`/`Temperature` → Temperature. -/
theorem inline_quality_amended :
    ∀ (st : CalState) (data : String) (g : String) (r : ℚ),
      st.inEq = false →
      pyStrip data ≠ "CALIBRATION EQUATIONS" →
      ¬startsWithPy data "STATUS_COMPACT:" →
      ¬(containsSub data "EC:" ∧ (containsSub data "T:" ∨ containsSub data "Temp:")) →
      (containsSub data "EC_LOW:" ∨ containsSub data "EC_HIGH:" ∨
        containsSub data "PH:" ∨ containsSub data "TEMP:") →
      qualSearch data = some g → pyFloat g = some r →
      ((containsSub data "EC_LOW:" ∨ containsSub data "EC Low") →
        CalEvent.quality .ECL r ∈ (calStep st data).2) ∧
      ((containsSub data "EC_HIGH:" ∨ containsSub data "EC High") →
        CalEvent.quality .ECH r ∈ (calStep st data).2) ∧
      ((containsSub data "pH:" ∧ containsSub data "R") →
        CalEvent.quality .PH r ∈ (calStep st data).2) ∧
      ((containsSub data "TEMP:" ∨ containsSub data "Temperature") →
        CalEvent.quality .T r ∈ (calStep st data).2) := by
  intro st data g r hst h1 h3 h4 h5 hq hf
  have hstep : (calStep st data).2 =
      (update_from_data data).1 ++
        (if (update_from_data data).2 ∧ containsSub data "R2=" then [CalEvent.calComplete]
          else []) := by
    unfold calStep
    rw [if_neg h1, if_neg (by simp [hst] : ¬st.inEq = true), if_neg h3, if_neg h4, if_pos h5]
  obtain ⟨hl, -⟩ := update_from_data_of_search hq hf
  refine ⟨fun hc => ?_, fun hc => ?_, fun hc => ?_, fun hc => ?_⟩ <;>
    rw [hstep, hl] <;> rw [if_pos hc] <;> simp

theorem pyFloat_9987 : pyFloat "0.9987" = some ((9987 : ℚ) / 10000) := by
  have h : pyFloat "0.9987" = some ((0 : ℚ) + 9987 / 10 ^ 4) := rfl
  rw [h]
  norm_num

/-- C5 witness: a concrete tagged quality line through the amended
theorem. -/
theorem inline_quality_amended_witness :
    CalEvent.quality .ECL ((9987 : ℚ) / 10000) ∈
      (calStep CalState.init "EC_LOW: R2=0.9987").2 :=
  (inline_quality_amended CalState.init "EC_LOW: R2=0.9987" "0.9987" ((9987 : ℚ) / 10000)
    rfl (by decide) (by decide) (by decide) (by decide) (by decide) pyFloat_9987).1
    (by decide)

/-- C8 witness: a completed block leaves idle state and empty buffer; an
aborted block flushed by its terminator clears the buffer; an emitting
reading step releases the map. -/
theorem decoder_buffer_invariant_witness :
    (calFeed CalState.init ["STATUS_COMPACT:ECL:1,1,1.0"]).1.buffer = [] ∧
      (calStep ⟨true, ["--- TEMPERATURE ---"], SensorMap.empty⟩ "Quality: R2=0.5").1.buffer = [] ∧
      (readerStep (some ⟨some "1", some "2", none⟩) "pH: 7.0").1 = none := by
  refine ⟨decoder_buffer_invariant.1 ["STATUS_COMPACT:ECL:1,1,1.0"] (by decide),
    decoder_buffer_invariant.2.1 ⟨true, ["--- TEMPERATURE ---"], SensorMap.empty⟩
      "Quality: R2=0.5" rfl (by decide),
    decoder_buffer_invariant.2.2 ⟨some "1", some "2", none⟩ "pH: 7.0" (by decide)⟩


/-! ### C6: STATUS_COMPACT parsing -/

theorem afterFirstColon_status (r : List Char) :
    afterFirstColon ⟨"STATUS_COMPACT:".data ++ r⟩ = some ⟨r⟩ := by
  unfold afterFirstColon
  have h1 : splitOnCharL ':' (String.data ⟨"STATUS_COMPACT:".data ++ r⟩)
      = "STATUS_COMPACT".data :: splitOnCharL ':' r := by
    show splitOnCharL ':' ("STATUS_COMPACT".data ++ ':' :: r) = _
    exact List.splitOnP_first (fun y => y == ':') "STATUS_COMPACT".data
      (by decide) ':' (by decide) r
  rcases hsp : splitOnCharL ':' r with _ | ⟨h, t⟩
  · exact absurd hsp (List.splitOnP_ne_nil _ r)
  · rw [h1, hsp]
    show some (⟨List.intercalate [':'] (h :: t)⟩ : String) = some ⟨r⟩
    rw [← hsp, intercalate_splitOnCharL]

theorem parse_status_compact_segments (segs : List String) (hne : segs ≠ [])
    (hsep : ∀ sg ∈ segs, '|' ∉ sg.data) :
    parse_status_compact
        ⟨"STATUS_COMPACT:".data ++ List.intercalate ['|'] (segs.map String.data)⟩
      = (segs.map parseSegment).reduceOption := by
  unfold parse_status_compact
  rw [afterFirstColon_status]
  show ((List.map String.mk
      (splitOnCharL '|' (List.intercalate ['|'] (segs.map String.data)))).map
        parseSegment).reduceOption
    = (segs.map parseSegment).reduceOption
  rw [splitOnCharL_intercalate '|' (by simpa using hne) ?hsep]
  case hsep =>
    intro xs hxs
    obtain ⟨sg, hsg, rfl⟩ := List.mem_map.1 hxs
    exact hsep sg hsg
  rw [List.map_map, List.map_map]
  rfl

/-- C6: `STATUS_COMPACT:ECL:1,4,0.9987|ECH:0,0,0.0000` fed while idle
emits one status event whose entries read ECL calibrated with 4 points and
R²=0.9987 and ECH uncalibrated with 0 points and R²=0.0; in general, for
any `|`-joined segment list, the parse yields exactly the entries of the
well-formed segments, silently skipping every malformed one. -/
theorem status_compact_parsing :
    (calStep CalState.init "STATUS_COMPACT:ECL:1,4,0.9987|ECH:0,0,0.0000"
        = (CalState.init,
          [CalEvent.statusCompact
            [("ECL", true, "4", "0.9987"), ("ECH", false, "0", "0.0000")]]) ∧
      pyFloat "0.9987" = some ((9987 : ℚ) / 10000) ∧
      pyFloat "0.0000" = some 0 ∧
      pyFloat "4" = some 4) ∧
    (∀ segs : List String, segs ≠ [] → (∀ sg ∈ segs, '|' ∉ sg.data) →
      parse_status_compact
          ⟨"STATUS_COMPACT:".data ++ List.intercalate ['|'] (segs.map String.data)⟩
        = (segs.map parseSegment).reduceOption) := by
  refine ⟨⟨by decide, pyFloat_9987, ?_, rfl⟩, parse_status_compact_segments⟩
  have h : pyFloat "0.0000" = some ((0 : ℚ) + 0 / 10 ^ 4) := rfl
  rw [h]
  norm_num

/-- C6 witness: a segment list with two malformed segments (too few colon
parts, too few comma values) parses to just the good entry. -/
theorem status_compact_parsing_witness :
    parse_status_compact
        ⟨"STATUS_COMPACT:".data ++
          List.intercalate ['|'] (["ECL:1,4,0.9987", "BAD", "PH:1,3"].map String.data)⟩
      = ((["ECL:1,4,0.9987", "BAD", "PH:1,3"].map parseSegment).reduceOption) :=
  status_compact_parsing.2 ["ECL:1,4,0.9987", "BAD", "PH:1,3"] (by decide) (by decide)

/-! ### C10: frame effect of `update_from_equations` -/

theorem SensorMap.get_set_ne (m : SensorMap) (d : ChanData) {c c2 : Channel}
    (h : c2 ≠ c) : (m.set c2 d).get c = m.get c := by
  cases c2 <;> cases c <;> first | exact absurd rfl h | rfl

theorem flushAcc_get_ne {a : EqAcc} {c : Channel}
    (h : a.cur = some c → a.points = []) :
    (flushAcc a).sensorData.get c = a.sensorData.get c := by
  unfold flushAcc
  cases hcur : a.cur with
  | none => rfl
  | some c2 =>
    split_ifs with hpts
    · rfl
    · by_cases hc : c2 = c
      · subst hc
        rw [h hcur] at hpts
        exact absurd rfl hpts
      · exact SensorMap.get_set_ne a.sensorData _ hc

theorem eqLineStep_body {a : EqAcc} {l : String} {a2 : EqAcc}
    (hh : headerOf (pyStrip l) = none) (h : eqLineStep a l = some a2) :
    a2.cur = a.cur ∧ a2.sensorData = a.sensorData ∧
      (¬appendsPoint l → a2.points = a.points) := by
  simp only [eqLineStep, hh] at h
  split_ifs at h with h1 h2 h3 h4
  · obtain rfl := Option.some_inj.1 h
    exact ⟨rfl, rfl, fun _ => rfl⟩
  · rcases hes : equationSearch (pyStrip l) with _ | ⟨g1, g2⟩
    · simp only [hes] at h
      obtain rfl := Option.some_inj.1 h
      exact ⟨rfl, rfl, fun _ => rfl⟩
    · simp only [hes] at h
      rcases hv : pyFloat g1 with _ | v
      · simp only [hv] at h
        exact Option.noConfusion h
      · simp only [hv] at h
        rcases hw : pyFloat g2 with _ | w
        · simp only [hw] at h
          exact Option.noConfusion h
        · simp only [hw] at h
          obtain rfl := Option.some_inj.1 h
          exact ⟨rfl, rfl, fun _ => rfl⟩
  · rcases hps : pointSearch (pyStrip l) with _ | ⟨g1, g2⟩
    · simp only [hps] at h
      obtain rfl := Option.some_inj.1 h
      exact ⟨rfl, rfl, fun _ => rfl⟩
    · simp only [hps] at h
      rcases hv : pyFloat g1 with _ | v
      · simp only [hv] at h
        exact Option.noConfusion h
      · simp only [hv] at h
        rcases hw : pyFloat g2 with _ | w
        · simp only [hw] at h
          exact Option.noConfusion h
        · simp only [hw] at h
          obtain rfl := Option.some_inj.1 h
          refine ⟨rfl, rfl, fun hnap => absurd ?_ hnap⟩
          refine ⟨hh, h2, h3, ?_⟩
          simp only [hps, hv, hw, Option.isSome_some]
          rfl
  · rcases hrs : r2Search (pyStrip l) with _ | g
    · simp only [hrs] at h
      obtain rfl := Option.some_inj.1 h
      exact ⟨rfl, rfl, fun _ => rfl⟩
    · simp only [hrs] at h
      rcases hv : pyFloat g with _ | v
      · simp only [hv] at h
        exact Option.noConfusion h
      · simp only [hv] at h
        obtain rfl := Option.some_inj.1 h
        exact ⟨rfl, rfl, fun _ => rfl⟩
  · obtain rfl := Option.some_inj.1 h
    exact ⟨rfl, rfl, fun _ => rfl⟩

theorem eqLineStep_header {a : EqAcc} {l : String} {ch : Channel}
    (hh : headerOf (pyStrip l) = some ch) :
    eqLineStep a l = some
      { flushAcc a with cur := some ch, points := [], coeffC := 0, coeffD := 0, r2 := 0 } := by
  simp only [eqLineStep, hh]

theorem sectionsSplit_cons_header {l : String} {ch : Channel} (rest : List String)
    (hh : headerOf (pyStrip l) = some ch) :
    sectionsSplit (l :: rest)
      = ([], (ch, (sectionsSplit rest).1) :: (sectionsSplit rest).2) := by
  show (match headerOf (pyStrip l) with
        | some c => ([], (c, (sectionsSplit rest).1) :: (sectionsSplit rest).2)
        | none => (l :: (sectionsSplit rest).1, (sectionsSplit rest).2)) = _
  rw [hh]

theorem sectionsSplit_cons_body {l : String} (rest : List String)
    (hh : headerOf (pyStrip l) = none) :
    sectionsSplit (l :: rest)
      = (l :: (sectionsSplit rest).1, (sectionsSplit rest).2) := by
  show (match headerOf (pyStrip l) with
        | some c => ([], (c, (sectionsSplit rest).1) :: (sectionsSplit rest).2)
        | none => (l :: (sectionsSplit rest).1, (sectionsSplit rest).2)) = _
  rw [hh]

theorem eqLinesRun_frame (c : Channel) :
    ∀ (lines : List String) (a : EqAcc),
      (∀ p ∈ (sectionsSplit lines).2, p.1 = c → ∀ l ∈ p.2, ¬appendsPoint l) →
      (a.cur = some c → a.points = [] ∧ ∀ l ∈ (sectionsSplit lines).1, ¬appendsPoint l) →
      (eqLinesRun a lines).1.sensorData.get c = a.sensorData.get c ∧
        ((eqLinesRun a lines).1.cur = some c → (eqLinesRun a lines).1.points = []) := by
  intro lines
  induction lines with
  | nil =>
    intro a _ hpre
    exact ⟨rfl, fun hc => (hpre hc).1⟩
  | cons l rest ih =>
    intro a hchunks hpre
    have hrun : eqLinesRun a (l :: rest)
        = match eqLineStep a l with
          | some a2 => eqLinesRun a2 rest
          | none => (a, false) := rfl
    rcases hstep : eqLineStep a l with _ | a2
    · rw [hrun, hstep]
      exact ⟨rfl, fun hc => (hpre hc).1⟩
    · rw [hrun, hstep]
      rcases hh : headerOf (pyStrip l) with _ | ch
      · obtain ⟨hcur, hsd, hpts⟩ := eqLineStep_body hh hstep
        rw [sectionsSplit_cons_body rest hh] at hchunks hpre
        have hpre2 : a2.cur = some c →
            a2.points = [] ∧ ∀ x ∈ (sectionsSplit rest).1, ¬appendsPoint x := by
          intro hc2
          have hac : a.cur = some c := by rw [← hcur]; exact hc2
          obtain ⟨hp0, hall⟩ := hpre hac
          refine ⟨?_, fun x hx => hall x (List.mem_cons_of_mem l hx)⟩
          rw [hpts (hall l (List.mem_cons_self l _)), hp0]
        have hrest := ih a2 hchunks hpre2
        exact ⟨hrest.1.trans (by rw [hsd]), hrest.2⟩
      · have ha2 : a2 = { flushAcc a with
            cur := some ch, points := [], coeffC := 0, coeffD := 0, r2 := 0 } :=
          Option.some_inj.1 (hstep.symm.trans (eqLineStep_header hh))
        rw [sectionsSplit_cons_header rest hh] at hchunks
        have hgetflush : (flushAcc a).sensorData.get c = a.sensorData.get c :=
          flushAcc_get_ne (fun hc2 => (hpre hc2).1)
        have hpre2 : a2.cur = some c →
            a2.points = [] ∧ ∀ x ∈ (sectionsSplit rest).1, ¬appendsPoint x := by
          intro hc2
          have hchc : ch = c := by
            rw [ha2] at hc2
            exact Option.some_inj.1 hc2
          refine ⟨by rw [ha2], ?_⟩
          exact hchunks (ch, (sectionsSplit rest).1) (List.mem_cons_self _ _)
            (by rw [hchc])
        have hrest := ih a2
          (fun p hp hpc => hchunks p (List.mem_cons_of_mem _ hp) hpc) hpre2
        refine ⟨hrest.1.trans ?_, hrest.2⟩
        rw [ha2]
        exact hgetflush

/-- C10: applying `update_from_equations` leaves the stored calibration
entry of every channel that appears with no successfully-parsed
calibration point in the response — in particular every channel absent
from it — unchanged. -/
theorem equations_frame_effect :
    ∀ (m : SensorMap) (full : String) (c : Channel),
      (∀ p ∈ (sectionsSplit ((splitOnCharL '\n' full.data).map String.mk)).2,
        p.1 = c → ∀ l ∈ p.2, ¬appendsPoint l) →
      (update_from_equations m full).1.get c = m.get c := by
  intro m full c hchunks
  have hrun := eqLinesRun_frame c ((splitOnCharL '\n' full.data).map String.mk)
    ⟨none, [], 0, 0, 0, m, []⟩ hchunks (fun hc => Option.noConfusion hc)
  unfold update_from_equations
  rcases hr : eqLinesRun ⟨none, [], 0, 0, 0, m, []⟩
      ((splitOnCharL '\n' full.data).map String.mk) with ⟨a2, ok⟩
  rw [hr] at hrun
  cases ok
  · exact hrun.1
  · have hflush : (flushAcc a2).sensorData.get c = a2.sensorData.get c :=
      flushAcc_get_ne hrun.2
    exact hflush.trans hrun.1

/-- C10 witness: a response whose EC-high section carries an `Equation:`
line but no points leaves a previously stored EC-high entry untouched. -/
theorem equations_frame_effect_witness :
    (update_from_equations ⟨none, some ⟨[(1, 2)], 3, 4, 5⟩, none, none⟩
        (joinNL ["CALIBRATION EQUATIONS", "--- EC HIGH RANGE ---",
          "Equation: EC = 2.0 * V_mV + 1.0"])).1.get .ECH
      = (⟨none, some ⟨[(1, 2)], 3, 4, 5⟩, none, none⟩ : SensorMap).get .ECH :=
  equations_frame_effect ⟨none, some ⟨[(1, 2)], 3, 4, 5⟩, none, none⟩
    (joinNL ["CALIBRATION EQUATIONS", "--- EC HIGH RANGE ---",
      "Equation: EC = 2.0 * V_mV + 1.0"]) .ECH (by decide)


/-! ### C2: the SENSOR READINGS block -/

theorem readerStep_collect {b : RBuf} {data : String}
    (hhdr : pyStrip data ≠ "SENSOR READINGS") :
    readerStep (some b) data =
      if bufComplete (updateBuf b data) then
        (none,
         match parse_sensor_readings (updateBuf b data) with
         | some ev => [ev]
         | none => [REvent.parseFail])
      else (some (updateBuf b data), []) := by
  simp only [readerStep, if_neg hhdr]

theorem bufComplete_updateBuf {b : RBuf} (l : String) (h : bufComplete b) :
    bufComplete (updateBuf b l) := by
  obtain ⟨h1, h2, h3⟩ := h
  refine ⟨?_, ?_, ?_⟩
  · rcases hx : ecSearchReader l with _ | v
    · simp only [updateBuf, hx]
      exact h1
    · simp only [updateBuf, hx, Option.isSome_some]
  · rcases hx : tempSearchReader l with _ | v
    · simp only [updateBuf, hx]
      exact h2
    · simp only [updateBuf, hx, Option.isSome_some]
  · rcases hx : phSearchReader l with _ | v
    · simp only [updateBuf, hx]
      exact h3
    · simp only [updateBuf, hx, Option.isSome_some]

theorem bufComplete_bufAfter {b : RBuf} (lines : List String) (h : bufComplete b) :
    bufComplete (bufAfter b lines) := by
  induction lines generalizing b with
  | nil => exact h
  | cons l rest ih => exact ih (bufComplete_updateBuf l h)

theorem bufAfter_concat (b : RBuf) (xs : List String) (x : String) :
    bufAfter b (xs ++ [x]) = updateBuf (bufAfter b xs) x := by
  unfold bufAfter
  rw [List.foldl_append]
  rfl

theorem readerFeed_singleton (st : RState) (l : String) :
    readerFeed st [l] = ((readerStep st l).1, (readerStep st l).2) := by
  show ((readerFeed (readerStep st l).1 []).1,
    (readerStep st l).2 ++ (readerFeed (readerStep st l).1 []).2) = _
  show ((readerStep st l).1, (readerStep st l).2 ++ []) = _
  rw [List.append_nil]

theorem readerFeed_collect :
    ∀ (lines : List String) (b : RBuf),
      (∀ l ∈ lines, pyStrip l ≠ "SENSOR READINGS") →
      ¬bufComplete (bufAfter b lines) →
      readerFeed (some b) lines = (some (bufAfter b lines), []) := by
  intro lines
  induction lines with
  | nil =>
    intro b _ _
    rfl
  | cons l rest ih =>
    intro b hhdr hnc
    have hstep := @readerStep_collect b l (hhdr l (List.mem_cons_self l rest))
    have hne : ¬bufComplete (updateBuf b l) := by
      intro hc
      exact hnc (bufComplete_bufAfter rest hc)
    rw [if_neg hne] at hstep
    have hr := ih (updateBuf b l) (fun x hx => hhdr x (List.mem_cons_of_mem l hx)) hnc
    have hgoal : readerFeed (some b) (l :: rest)
        = ((readerFeed (readerStep (some b) l).1 rest).1,
           (readerStep (some b) l).2 ++ (readerFeed (readerStep (some b) l).1 rest).2) := rfl
    rw [hgoal, hstep]
    show ((readerFeed (some (updateBuf b l)) rest).1,
      [] ++ (readerFeed (some (updateBuf b l)) rest).2) = _
    rw [hr]
    rfl

/-- The last value in a fold of overwrites: default if no value arrives. -/
def lastOr (dflt : Option String) (vals : List String) : Option String :=
  match vals.getLast? with
  | some v => some v
  | none => dflt

theorem lastOr_cons (d : Option String) (v : String) (vs : List String) :
    lastOr d (v :: vs) = lastOr (some v) vs := by
  cases vs with
  | nil => rfl
  | cons w ws =>
    rcases hgl : (w :: ws).getLast? with _ | u
    · rw [List.getLast?_eq_none_iff] at hgl
      exact absurd hgl (by simp)
    · unfold lastOr
      rw [List.getLast?_cons_cons, hgl]

theorem bufAfter_ec (lines : List String) :
    ∀ b : RBuf, (bufAfter b lines).ec = lastOr b.ec (lines.filterMap ecSearchReader) := by
  induction lines with
  | nil => intro b; rfl
  | cons l rest ih =>
    intro b
    show (bufAfter (updateBuf b l) rest).ec = _
    rw [ih (updateBuf b l)]
    rcases hx : ecSearchReader l with _ | v
    · rw [List.filterMap_cons_none hx]
      simp only [updateBuf, hx]
    · rw [List.filterMap_cons_some hx, lastOr_cons]
      simp only [updateBuf, hx]

theorem bufAfter_temp (lines : List String) :
    ∀ b : RBuf, (bufAfter b lines).temp = lastOr b.temp (lines.filterMap tempSearchReader) := by
  induction lines with
  | nil => intro b; rfl
  | cons l rest ih =>
    intro b
    show (bufAfter (updateBuf b l) rest).temp = _
    rw [ih (updateBuf b l)]
    rcases hx : tempSearchReader l with _ | v
    · rw [List.filterMap_cons_none hx]
      simp only [updateBuf, hx]
    · rw [List.filterMap_cons_some hx, lastOr_cons]
      simp only [updateBuf, hx]

theorem bufAfter_ph (lines : List String) :
    ∀ b : RBuf, (bufAfter b lines).ph = lastOr b.ph (lines.filterMap phSearchReader) := by
  induction lines with
  | nil => intro b; rfl
  | cons l rest ih =>
    intro b
    show (bufAfter (updateBuf b l) rest).ph = _
    rw [ih (updateBuf b l)]
    rcases hx : phSearchReader l with _ | v
    · rw [List.filterMap_cons_none hx]
      simp only [updateBuf, hx]
    · rw [List.filterMap_cons_some hx, lastOr_cons]
      simp only [updateBuf, hx]

theorem lastOr_none_isSome (vals : List String) :
    (lastOr none vals).isSome = true ↔ vals ≠ [] := by
  unfold lastOr
  rcases h : vals.getLast? with _ | v
  · simp [List.getLast?_eq_none_iff.1 h]
  · have : vals ≠ [] := by
      intro hv
      rw [hv] at h
      exact Option.noConfusion h
    simp [this]

theorem filterMap_ne_nil_iff {f : String → Option String} {lines : List String} :
    lines.filterMap f ≠ [] ↔ ∃ l ∈ lines, (f l).isSome = true := by
  constructor
  · intro h
    rcases hx : lines.filterMap f with _ | ⟨v, vs⟩
    · exact absurd hx h
    · have hv : v ∈ lines.filterMap f := by
        rw [hx]
        exact List.mem_cons_self v vs
      obtain ⟨l, hl, hfl⟩ := List.mem_filterMap.1 hv
      exact ⟨l, hl, by rw [hfl]; rfl⟩
  · rintro ⟨l, hl, hfl⟩ hnil
    rcases hf : f l with _ | v
    · rw [hf] at hfl
      exact Bool.noConfusion hfl
    · have : v ∈ lines.filterMap f := List.mem_filterMap.2 ⟨l, hl, hf⟩
      rw [hnil] at this
      exact List.not_mem_nil v this

theorem bufComplete_empty_iff (lines : List String) :
    bufComplete (bufAfter RBuf.empty lines) ↔
      (∃ l ∈ lines, (ecSearchReader l).isSome = true) ∧
      (∃ l ∈ lines, (tempSearchReader l).isSome = true) ∧
      (∃ l ∈ lines, (phSearchReader l).isSome = true) := by
  unfold bufComplete
  rw [bufAfter_ec lines RBuf.empty, bufAfter_temp lines RBuf.empty,
    bufAfter_ph lines RBuf.empty]
  show (lastOr none _).isSome = true ∧ (lastOr none _).isSome = true ∧
      (lastOr none _).isSome = true ↔ _
  rw [lastOr_none_isSome, lastOr_none_isSome, lastOr_none_isSome,
    filterMap_ne_nil_iff, filterMap_ne_nil_iff, filterMap_ne_nil_iff]

/-- C2: the concrete four-line scenario emits nothing on the first three
calls and exactly `SensorReadingEvent{ec: 0.0, temp: 22.1, ph: 5.24}` on
the fourth; in general, a block of exactly the header followed by
non-header lines whose fields first cover ec, temp and ph at the last
line emits exactly one reading event — carrying the parsed buffer of all
collected field texts — and returns the decoder to idle with the field
map released. -/
theorem sensor_readings_block :
    ((readerFeed none ["SENSOR READINGS", "EC:   0.0 uS/cm", "Temp: 22.1 C"]).2 = [] ∧
      readerFeed none ["SENSOR READINGS", "EC:   0.0 uS/cm", "Temp: 22.1 C", "pH:   5.24"]
        = (none, [REvent.reading (some 0) ((221 : ℚ) / 10) (some ((131 : ℚ) / 25))])) ∧
    (∀ (rest : List String) (ev : REvent),
      (∀ l ∈ rest, pyStrip l ≠ "SENSOR READINGS") →
      (∃ l ∈ rest, (ecSearchReader l).isSome = true) →
      (∃ l ∈ rest, (tempSearchReader l).isSome = true) →
      (∃ l ∈ rest, (phSearchReader l).isSome = true) →
      ¬((∃ l ∈ rest.dropLast, (ecSearchReader l).isSome = true) ∧
        (∃ l ∈ rest.dropLast, (tempSearchReader l).isSome = true) ∧
        (∃ l ∈ rest.dropLast, (phSearchReader l).isSome = true)) →
      parse_sensor_readings (bufAfter RBuf.empty rest) = some ev →
      readerFeed none ("SENSOR READINGS" :: rest) = (none, [ev])) := by
  constructor
  · constructor
    · rfl
    · have heval : readerFeed none
          ["SENSOR READINGS", "EC:   0.0 uS/cm", "Temp: 22.1 C", "pH:   5.24"]
          = (none, [REvent.reading (some ((0 : ℚ) + 0 / 10 ^ 1))
              ((22 : ℚ) + 1 / 10 ^ 1) (some ((5 : ℚ) + 24 / 10 ^ 2))]) := rfl
      rw [heval]
      norm_num
  · intro rest ev hhdr hec htemp hph hmin hparse
    rcases List.eq_nil_or_concat rest with rfl | ⟨body, last, hconcat⟩
    · obtain ⟨l, hl, -⟩ := hec
      exact absurd hl (List.not_mem_nil l)
    · rw [List.concat_eq_append] at hconcat
      subst hconcat
      have hcompl : bufComplete (bufAfter RBuf.empty (body ++ [last])) :=
        (bufComplete_empty_iff (body ++ [last])).2 ⟨hec, htemp, hph⟩
      have hbody_nc : ¬bufComplete (bufAfter RBuf.empty body) := by
        intro hc
        refine hmin ?_
        rw [List.dropLast_concat]
        exact (bufComplete_empty_iff body).1 hc
      have hfeed1 : readerFeed (some RBuf.empty) body = (some (bufAfter RBuf.empty body), []) :=
        readerFeed_collect body RBuf.empty
          (fun l hl => hhdr l (List.mem_append_left [last] hl)) hbody_nc
      have hlaststep : readerStep (some (bufAfter RBuf.empty body)) last = (none, [ev]) := by
        have hs := @readerStep_collect (bufAfter RBuf.empty body) last
          (hhdr last (List.mem_append_right body (List.mem_cons_self last [])))
        rw [← bufAfter_concat] at hs
        rw [if_pos hcompl] at hs
        rw [hs, hparse]
      have h1 : readerFeed none ("SENSOR READINGS" :: (body ++ [last]))
          = ((readerFeed (some RBuf.empty) (body ++ [last])).1,
             ([] : List REvent) ++ (readerFeed (some RBuf.empty) (body ++ [last])).2) := by
        have h0 : readerFeed none ("SENSOR READINGS" :: (body ++ [last]))
            = ((readerFeed (readerStep none "SENSOR READINGS").1 (body ++ [last])).1,
               (readerStep none "SENSOR READINGS").2
                 ++ (readerFeed (readerStep none "SENSOR READINGS").1 (body ++ [last])).2) := rfl
        rw [h0, readerStep_header none]
      rw [h1, readerFeed_append, hfeed1]
      show ((readerFeed (some (bufAfter RBuf.empty body)) [last]).1,
        ([] : List REvent) ++ ([] ++ (readerFeed (some (bufAfter RBuf.empty body)) [last]).2)) = _
      rw [readerFeed_singleton, hlaststep]
      rfl

/-- C2 witness: the general block theorem applied at the concrete
three-field block. -/
theorem sensor_readings_block_witness :
    readerFeed none ["SENSOR READINGS", "EC:   0.0 uS/cm", "Temp: 22.1 C", "pH:   5.24"]
      = (none, [REvent.reading (some ((0 : ℚ) + 0 / 10 ^ 1)) ((22 : ℚ) + 1 / 10 ^ 1)
          (some ((5 : ℚ) + 24 / 10 ^ 2))]) :=
  sensor_readings_block.2 ["EC:   0.0 uS/cm", "Temp: 22.1 C", "pH:   5.24"]
    (REvent.reading (some ((0 : ℚ) + 0 / 10 ^ 1)) ((22 : ℚ) + 1 / 10 ^ 1)
      (some ((5 : ℚ) + 24 / 10 ^ 2)))
    (by decide) (by decide) (by decide) (by decide) (by decide) rfl


/-! ### C1: the four-section CALIBRATION EQUATIONS block -/

/-- Overwrite the working section fields of the accumulator. -/
def setSec (q : SecAcc) (a : EqAcc) : EqAcc :=
  { a with points := q.points, coeffC := q.coeffC, coeffD := q.coeffD, r2 := q.r2 }

/-- The accumulator state at the start of a section body: the previous
section flushed, the working fields carrying the section's data. -/
def sectionState (c : Channel) (q : SecAcc) (a : EqAcc) : EqAcc :=
  { setSec q a with cur := some c }

theorem headerOf_sectionHeader : ∀ c : Channel,
    pyStrip (sectionHeader c) = sectionHeader c ∧ headerOf (sectionHeader c) = some c := by
  intro c
  cases c <;> exact ⟨rfl, rfl⟩

theorem eqLineStep_sim {a : EqAcc} {l : String} {c : Channel} (hc : a.cur = some c)
    (hh : headerOf (pyStrip l) = none) :
    eqLineStep a l = (secStep ⟨a.points, a.coeffC, a.coeffD, a.r2⟩ l).map
      (fun q => setSec q a) := by
  have hcn : ¬a.cur = none := by rw [hc]; exact fun hx => Option.noConfusion hx
  simp only [eqLineStep, secStep, setSec, hh, if_neg hcn]
  split_ifs with h1 h2 h3
  · rcases hes : equationSearch (pyStrip l) with _ | ⟨g1, g2⟩
    · simp only [hes]
      rfl
    · simp only [hes]
      rcases hv : pyFloat g1 with _ | v
      · try simp only [hv]
        rfl
      · try simp only [hv]
        rcases hw : pyFloat g2 with _ | w
        · try simp only [hw]
          rfl
        · try simp only [hw]
          rfl
  · rcases hps : pointSearch (pyStrip l) with _ | ⟨g1, g2⟩
    · simp only [hps]
      rfl
    · simp only [hps]
      rcases hv : pyFloat g1 with _ | v
      · try simp only [hv]
        rfl
      · try simp only [hv]
        rcases hw : pyFloat g2 with _ | w
        · try simp only [hw]
          rfl
        · try simp only [hw]
          rfl
  · rcases hrs : r2Search (pyStrip l) with _ | g
    · simp only [hrs]
      rfl
    · simp only [hrs]
      rcases hv : pyFloat g with _ | v
      · try simp only [hv]
        rfl
      · try simp only [hv]
        rfl
  · rfl

theorem eqLinesRun_body :
    ∀ (body : List String) (a : EqAcc) (c : Channel) (q : SecAcc) (rest : List String),
      a.cur = some c →
      (∀ l ∈ body, headerOf (pyStrip l) = none) →
      secRun ⟨a.points, a.coeffC, a.coeffD, a.r2⟩ body = some q →
      eqLinesRun a (body ++ rest) = eqLinesRun (setSec q a) rest := by
  intro body
  induction body with
  | nil =>
    intro a c q rest hc _ hrun
    obtain rfl := Option.some_inj.1 hrun
    rfl
  | cons l body2 ih =>
    intro a c q rest hc hhdr hrun
    have hsim := eqLineStep_sim hc (hhdr l (List.mem_cons_self l body2))
    have hrun2 : secRun ⟨a.points, a.coeffC, a.coeffD, a.r2⟩ (l :: body2)
        = match secStep ⟨a.points, a.coeffC, a.coeffD, a.r2⟩ l with
          | some q2 => secRun q2 body2
          | none => none := rfl
    rcases hss : secStep ⟨a.points, a.coeffC, a.coeffD, a.r2⟩ l with _ | q2
    · rw [hrun2, hss] at hrun
      exact Option.noConfusion hrun
    · rw [hrun2, hss] at hrun
      rw [hss] at hsim
      have hcons : eqLinesRun a ((l :: body2) ++ rest)
          = match eqLineStep a l with
            | some a2 => eqLinesRun a2 (body2 ++ rest)
            | none => (a, false) := rfl
      rw [hcons, hsim]
      show eqLinesRun (setSec q2 a) (body2 ++ rest) = _
      exact ih (setSec q2 a) c q rest
        (by rw [show (setSec q2 a).cur = a.cur from rfl]; exact hc)
        (fun x hx => hhdr x (List.mem_cons_of_mem l hx)) hrun

theorem run_section (c : Channel) (body : List String) (a : EqAcc) (q : SecAcc)
    (rest : List String)
    (hhdr : ∀ l ∈ body, headerOf (pyStrip l) = none)
    (hsec : sectionData body = some q) :
    eqLinesRun a (sectionHeader c :: (body ++ rest))
      = eqLinesRun (sectionState c q (flushAcc a)) rest := by
  have hstep : eqLineStep a (sectionHeader c) = some
      { flushAcc a with cur := some c, points := [], coeffC := 0, coeffD := 0, r2 := 0 } :=
    eqLineStep_header (by rw [(headerOf_sectionHeader c).1]; exact (headerOf_sectionHeader c).2)
  have hcons : eqLinesRun a (sectionHeader c :: (body ++ rest))
      = match eqLineStep a (sectionHeader c) with
        | some a2 => eqLinesRun a2 (body ++ rest)
        | none => (a, false) := rfl
  rw [hcons, hstep]
  show eqLinesRun (sectionState c ⟨[], 0, 0, 0⟩ (flushAcc a)) (body ++ rest) = _
  rw [eqLinesRun_body body (sectionState c ⟨[], 0, 0, 0⟩ (flushAcc a)) c q rest rfl hhdr
    (show secRun ⟨[], 0, 0, 0⟩ body = some q from hsec)]
  rfl

theorem flushAcc_cur_none {a : EqAcc} (h : a.cur = none) : flushAcc a = a := by
  unfold flushAcc
  rw [h]

theorem flushAcc_writes_some {a : EqAcc} {c : Channel} (h : a.cur = some c) :
    (flushAcc a).writes = a.writes ++
      (if a.points.isEmpty then []
        else [(c, (⟨a.points, a.coeffC, a.coeffD, a.r2⟩ : ChanData))]) := by
  unfold flushAcc
  rw [h]
  split_ifs with hp
  · rw [List.append_nil]
  · rfl

theorem expectedWrites_four (q1 q2 q3 q4 : SecAcc) :
    expectedWrites [(.ECL, q1), (.ECH, q2), (.PH, q3), (.T, q4)]
      = ((((([] : List (Channel × ChanData)) ++
          (if q1.points.isEmpty then []
            else [(Channel.ECL, (⟨q1.points, q1.coeffC, q1.coeffD, q1.r2⟩ : ChanData))])) ++
          (if q2.points.isEmpty then []
            else [(Channel.ECH, (⟨q2.points, q2.coeffC, q2.coeffD, q2.r2⟩ : ChanData))])) ++
          (if q3.points.isEmpty then []
            else [(Channel.PH, (⟨q3.points, q3.coeffC, q3.coeffD, q3.r2⟩ : ChanData))])) ++
          (if q4.points.isEmpty then []
            else [(Channel.T, (⟨q4.points, q4.coeffC, q4.coeffD, q4.r2⟩ : ChanData))])) := by
  by_cases e1 : q1.points = [] <;> by_cases e2 : q2.points = [] <;>
    by_cases e3 : q3.points = [] <;> by_cases e4 : q4.points = [] <;>
    simp [expectedWrites, e1, e2, e3, e4]

theorem joinNL_split (resp : List String) (hne : resp ≠ [])
    (hn : ∀ l ∈ resp, '\n' ∉ l.data) :
    (splitOnCharL '\n' ((joinNL resp).data)).map String.mk = resp := by
  show (splitOnCharL '\n' (List.intercalate ['\n'] (resp.map String.data))).map String.mk = resp
  rw [splitOnCharL_intercalate '\n' (by simpa using hne) ?hmem]
  case hmem =>
    intro xs hxs
    obtain ⟨l, hl, rfl⟩ := List.mem_map.1 hxs
    exact hn l hl
  rw [List.map_map]
  exact List.map_id'' (fun _ => rfl) _

theorem update_from_equations_response (m : SensorMap)
    (b1 b2 b3 b4 : List String) (q1 q2 q3 q4 : SecAcc)
    (hn : ∀ l ∈ fourSectionResponse b1 b2 b3 b4, '\n' ∉ l.data)
    (hh1 : ∀ l ∈ b1, headerOf (pyStrip l) = none)
    (hh2 : ∀ l ∈ b2, headerOf (pyStrip l) = none)
    (hh3 : ∀ l ∈ b3, headerOf (pyStrip l) = none)
    (hh4 : ∀ l ∈ b4, headerOf (pyStrip l) = none)
    (hs1 : sectionData b1 = some q1) (hs2 : sectionData b2 = some q2)
    (hs3 : sectionData b3 = some q3) (hs4 : sectionData b4 = some q4) :
    (update_from_equations m (joinNL (fourSectionResponse b1 b2 b3 b4))).2.1
        = expectedWrites [(.ECL, q1), (.ECH, q2), (.PH, q3), (.T, q4)] ∧
      (update_from_equations m (joinNL (fourSectionResponse b1 b2 b3 b4))).2.2 = true := by
  have hsj := joinNL_split (fourSectionResponse b1 b2 b3 b4) (by
    intro hx
    exact List.noConfusion hx) hn
  have hassoc : fourSectionResponse b1 b2 b3 b4
      = "CALIBRATION EQUATIONS" ::
          sectionHeader .ECL :: (b1 ++ (sectionHeader .ECH :: (b2 ++
            (sectionHeader .PH :: (b3 ++ (sectionHeader .T :: (b4 ++ []))))))) := by
    show "CALIBRATION EQUATIONS" ::
        (sectionHeader .ECL :: b1) ++ (sectionHeader .ECH :: b2) ++
          (sectionHeader .PH :: b3) ++ (sectionHeader .T :: b4) = _
    simp [List.append_assoc]
  have hstep0 : eqLineStep ⟨none, [], 0, 0, 0, m, []⟩ "CALIBRATION EQUATIONS"
      = some ⟨none, [], 0, 0, 0, m, []⟩ := rfl
  have hrun : eqLinesRun ⟨none, [], 0, 0, 0, m, []⟩ (fourSectionResponse b1 b2 b3 b4)
      = (sectionState .T q4 (flushAcc (sectionState .PH q3 (flushAcc (sectionState .ECH q2
          (flushAcc (sectionState .ECL q1 (flushAcc ⟨none, [], 0, 0, 0, m, []⟩)))))) ), true) := by
    rw [hassoc]
    have hcons : eqLinesRun ⟨none, [], 0, 0, 0, m, []⟩ ("CALIBRATION EQUATIONS" :: (
        sectionHeader .ECL :: (b1 ++ (sectionHeader .ECH :: (b2 ++
          (sectionHeader .PH :: (b3 ++ (sectionHeader .T :: (b4 ++ [])))))))))
        = match eqLineStep ⟨none, [], 0, 0, 0, m, []⟩ "CALIBRATION EQUATIONS" with
          | some a2 => eqLinesRun a2 (sectionHeader .ECL :: (b1 ++ (sectionHeader .ECH :: (b2 ++
              (sectionHeader .PH :: (b3 ++ (sectionHeader .T :: (b4 ++ []))))))))
          | none => (⟨none, [], 0, 0, 0, m, []⟩, false) := rfl
    rw [hcons, hstep0]
    show eqLinesRun ⟨none, [], 0, 0, 0, m, []⟩ (sectionHeader .ECL :: (b1 ++ _)) = _
    rw [run_section .ECL b1 _ q1 _ hh1 hs1,
      run_section .ECH b2 _ q2 _ hh2 hs2,
      run_section .PH b3 _ q3 _ hh3 hs3,
      run_section .T b4 _ q4 _ hh4 hs4]
    rfl
  have hupd : update_from_equations m (joinNL (fourSectionResponse b1 b2 b3 b4))
      = ((flushAcc (sectionState .T q4 (flushAcc (sectionState .PH q3 (flushAcc
            (sectionState .ECH q2 (flushAcc (sectionState .ECL q1
              (flushAcc ⟨none, [], 0, 0, 0, m, []⟩))))))))).sensorData,
          (flushAcc (sectionState .T q4 (flushAcc (sectionState .PH q3 (flushAcc
            (sectionState .ECH q2 (flushAcc (sectionState .ECL q1
              (flushAcc ⟨none, [], 0, 0, 0, m, []⟩))))))))).writes, true) := by
    unfold update_from_equations
    rw [hsj, hrun]
  rw [hupd]
  refine ⟨?_, rfl⟩
  show (flushAcc (sectionState .T q4 _)).writes = _
  rw [flushAcc_writes_some (show (sectionState .T q4 _).cur = some .T from rfl)]
  show ((flushAcc (sectionState .PH q3 _)).writes ++ _) = _
  rw [flushAcc_writes_some (show (sectionState .PH q3 _).cur = some .PH from rfl)]
  show (((flushAcc (sectionState .ECH q2 _)).writes ++ _) ++ _) = _
  rw [flushAcc_writes_some (show (sectionState .ECH q2 _).cur = some .ECH from rfl)]
  show ((((flushAcc (sectionState .ECL q1 _)).writes ++ _) ++ _) ++ _) = _
  rw [flushAcc_writes_some (show (sectionState .ECL q1 _).cur = some .ECL from rfl)]
  rw [flushAcc_cur_none rfl]
  rw [expectedWrites_four q1 q2 q3 q4]
  rfl

/-! ### C1: the decoder run over a full four-section block -/

theorem goodBodyLine_parts {l : String} (h : goodBodyLine l) :
    '\n' ∉ l.data ∧ pyStrip l ≠ "" ∧ pyStrip l ≠ "CALIBRATION EQUATIONS" ∧
      headerOf (pyStrip l) = none ∧ ¬containsSub l "--- TEMPERATURE ---" := h

theorem calStep_eqheader (st : CalState) :
    calStep st "CALIBRATION EQUATIONS"
      = ({ st with inEq := true, buffer := ["CALIBRATION EQUATIONS"] }, []) := by
  unfold calStep
  rw [if_pos (show pyStrip "CALIBRATION EQUATIONS" = "CALIBRATION EQUATIONS" by decide)]

theorem calStep_collect {st : CalState} {data : String} (hin : st.inEq = true)
    (hce : pyStrip data ≠ "CALIBRATION EQUATIONS")
    (hfl : ¬(containsSub (joinNL (st.buffer ++ [data])) "--- TEMPERATURE ---" ∧
      startsWithPy (pyStrip data) "Quality:"))
    (hbl : pyStrip data ≠ "") :
    calStep st data = ({ st with buffer := st.buffer ++ [data] }, []) := by
  unfold calStep
  rw [if_neg hce, if_pos hin, if_neg hfl, if_neg (fun hx => hbl hx.1)]

theorem calStep_flush {st : CalState} {lq : String} (hin : st.inEq = true)
    (hT : containsSub (joinNL (st.buffer ++ [lq])) "--- TEMPERATURE ---")
    (hQ : startsWithPy (pyStrip lq) "Quality:") :
    calStep st lq
      = (⟨false, [],
            (update_from_equations st.sensorData (joinNL (st.buffer ++ [lq]))).1⟩,
          [CalEvent.equations false
            (update_from_equations st.sensorData (joinNL (st.buffer ++ [lq]))).2.1
            (update_from_equations st.sensorData (joinNL (st.buffer ++ [lq]))).2.2]) := by
  have hce : ¬pyStrip lq = "CALIBRATION EQUATIONS" := by
    intro hx
    rw [hx] at hQ
    exact absurd hQ (by decide)
  unfold calStep
  rw [if_neg hce, if_pos hin, if_pos (And.intro hT hQ)]

theorem calFeed_collect_noT (lines : List String) :
    ∀ st : CalState, st.inEq = true →
      (∀ l ∈ st.buffer, ¬containsSub l "--- TEMPERATURE ---") →
      (∀ l ∈ lines, pyStrip l ≠ "" ∧ pyStrip l ≠ "CALIBRATION EQUATIONS" ∧
        ¬containsSub l "--- TEMPERATURE ---") →
      calFeed st lines = ({ st with buffer := st.buffer ++ lines }, []) := by
  induction lines with
  | nil =>
    intro st hin hbuf hls
    show (st, []) = _
    rw [List.append_nil]
  | cons l rest ih =>
    intro st hin hbuf hls
    obtain ⟨hl1, hl2, hl3⟩ := hls l (List.mem_cons_self l rest)
    have hbuf2 : ∀ x ∈ st.buffer ++ [l], ¬containsSub x "--- TEMPERATURE ---" := by
      intro x hx
      rcases List.mem_append.1 hx with hx1 | hx1
      · exact hbuf x hx1
      · rw [List.mem_singleton] at hx1
        subst hx1
        exact hl3
    have hnoT : ¬containsSub (joinNL (st.buffer ++ [l])) "--- TEMPERATURE ---" := by
      intro hc
      obtain ⟨x, hx, hpx⟩ := (containsSub_joinNL (by decide) (by decide) _).1 hc
      exact hbuf2 x hx hpx
    have hstep : calStep st l = ({ st with buffer := st.buffer ++ [l] }, []) :=
      calStep_collect hin hl2 (fun hx => hnoT hx.1) hl1
    have hrest := ih { st with buffer := st.buffer ++ [l] } hin hbuf2
      (fun x hx => hls x (List.mem_cons_of_mem l hx))
    rw [show calFeed st (l :: rest)
        = ((calFeed (calStep st l).1 rest).1,
            (calStep st l).2 ++ (calFeed (calStep st l).1 rest).2) from rfl]
    rw [hstep]
    show ((calFeed { st with buffer := st.buffer ++ [l] } rest).1,
        (calFeed { st with buffer := st.buffer ++ [l] } rest).2) = _
    rw [hrest]
    show ({ st with buffer := st.buffer ++ [l] ++ rest }, ([] : List CalEvent)) = _
    rw [List.append_assoc]
    rfl

theorem calFeed_collect_noQ (lines : List String) :
    ∀ st : CalState, st.inEq = true →
      (∀ l ∈ lines, pyStrip l ≠ "" ∧ pyStrip l ≠ "CALIBRATION EQUATIONS" ∧
        ¬startsWithPy (pyStrip l) "Quality:") →
      calFeed st lines = ({ st with buffer := st.buffer ++ lines }, []) := by
  induction lines with
  | nil =>
    intro st hin hls
    show (st, []) = _
    rw [List.append_nil]
  | cons l rest ih =>
    intro st hin hls
    obtain ⟨hl1, hl2, hl3⟩ := hls l (List.mem_cons_self l rest)
    have hstep : calStep st l = ({ st with buffer := st.buffer ++ [l] }, []) :=
      calStep_collect hin hl2 (fun hx => hl3 hx.2) hl1
    have hrest := ih { st with buffer := st.buffer ++ [l] } hin
      (fun x hx => hls x (List.mem_cons_of_mem l hx))
    rw [show calFeed st (l :: rest)
        = ((calFeed (calStep st l).1 rest).1,
            (calStep st l).2 ++ (calFeed (calStep st l).1 rest).2) from rfl]
    rw [hstep]
    show ((calFeed { st with buffer := st.buffer ++ [l] } rest).1,
        (calFeed { st with buffer := st.buffer ++ [l] } rest).2) = _
    rw [hrest]
    show ({ st with buffer := st.buffer ++ [l] ++ rest }, ([] : List CalEvent)) = _
    rw [List.append_assoc]
    rfl

theorem calFeed_block_prefix (m : SensorMap) (b1 b2 b3 binit : List String)
    (hg1 : ∀ l ∈ b1, goodBodyLine l) (hg2 : ∀ l ∈ b2, goodBodyLine l)
    (hg3 : ∀ l ∈ b3, goodBodyLine l) (hgi : ∀ l ∈ binit, goodBodyLine l)
    (hnq : ∀ l ∈ binit, ¬startsWithPy (pyStrip l) "Quality:") :
    calFeed ⟨false, [], m⟩
        ("CALIBRATION EQUATIONS" ::
          ((sectionHeader .ECL :: b1) ++ (sectionHeader .ECH :: b2) ++
            (sectionHeader .PH :: b3) ++ (sectionHeader .T :: binit)))
      = (⟨true, "CALIBRATION EQUATIONS" ::
            ((sectionHeader .ECL :: b1) ++ (sectionHeader .ECH :: b2) ++
              (sectionHeader .PH :: b3) ++ (sectionHeader .T :: binit)), m⟩, []) := by
  have hlsA : ∀ x ∈ (sectionHeader .ECL :: b1) ++ (sectionHeader .ECH :: b2) ++
      (sectionHeader .PH :: b3),
      pyStrip x ≠ "" ∧ pyStrip x ≠ "CALIBRATION EQUATIONS" ∧
        ¬containsSub x "--- TEMPERATURE ---" := by
    intro x hx
    rcases List.mem_append.1 hx with hx1 | hx1
    · rcases List.mem_append.1 hx1 with hx2 | hx2
      · rcases List.mem_cons.1 hx2 with rfl | hx3
        · exact ⟨by decide, by decide, by decide⟩
        · obtain ⟨-, h2, h3, -, h5⟩ := goodBodyLine_parts (hg1 x hx3)
          exact ⟨h2, h3, h5⟩
      · rcases List.mem_cons.1 hx2 with rfl | hx3
        · exact ⟨by decide, by decide, by decide⟩
        · obtain ⟨-, h2, h3, -, h5⟩ := goodBodyLine_parts (hg2 x hx3)
          exact ⟨h2, h3, h5⟩
    · rcases List.mem_cons.1 hx1 with rfl | hx3
      · exact ⟨by decide, by decide, by decide⟩
      · obtain ⟨-, h2, h3, -, h5⟩ := goodBodyLine_parts (hg3 x hx3)
        exact ⟨h2, h3, h5⟩
  have hA := calFeed_collect_noT
      ((sectionHeader .ECL :: b1) ++ (sectionHeader .ECH :: b2) ++ (sectionHeader .PH :: b3))
      ⟨true, ["CALIBRATION EQUATIONS"], m⟩ rfl
      (by
        intro x hx
        rw [List.mem_singleton] at hx
        subst hx
        decide)
      hlsA
  have hlsB : ∀ x ∈ sectionHeader .T :: binit,
      pyStrip x ≠ "" ∧ pyStrip x ≠ "CALIBRATION EQUATIONS" ∧
        ¬startsWithPy (pyStrip x) "Quality:" := by
    intro x hx
    rcases List.mem_cons.1 hx with rfl | hx1
    · exact ⟨by decide, by decide, by decide⟩
    · obtain ⟨-, h2, h3, -, -⟩ := goodBodyLine_parts (hgi x hx1)
      exact ⟨h2, h3, hnq x hx1⟩
  have hB := calFeed_collect_noQ (sectionHeader .T :: binit)
      ⟨true, "CALIBRATION EQUATIONS" ::
        ((sectionHeader .ECL :: b1) ++ (sectionHeader .ECH :: b2) ++
          (sectionHeader .PH :: b3)), m⟩ rfl hlsB
  rw [show calFeed (⟨false, [], m⟩ : CalState)
      ("CALIBRATION EQUATIONS" ::
        ((sectionHeader .ECL :: b1) ++ (sectionHeader .ECH :: b2) ++
          (sectionHeader .PH :: b3) ++ (sectionHeader .T :: binit)))
      = ((calFeed (calStep ⟨false, [], m⟩ "CALIBRATION EQUATIONS").1
            ((sectionHeader .ECL :: b1) ++ (sectionHeader .ECH :: b2) ++
              (sectionHeader .PH :: b3) ++ (sectionHeader .T :: binit))).1,
          (calStep ⟨false, [], m⟩ "CALIBRATION EQUATIONS").2 ++
            (calFeed (calStep ⟨false, [], m⟩ "CALIBRATION EQUATIONS").1
              ((sectionHeader .ECL :: b1) ++ (sectionHeader .ECH :: b2) ++
                (sectionHeader .PH :: b3) ++ (sectionHeader .T :: binit))).2) from rfl]
  rw [calStep_eqheader]
  show ((calFeed ⟨true, ["CALIBRATION EQUATIONS"], m⟩
        ((sectionHeader .ECL :: b1) ++ (sectionHeader .ECH :: b2) ++
          (sectionHeader .PH :: b3) ++ (sectionHeader .T :: binit))).1,
      (calFeed ⟨true, ["CALIBRATION EQUATIONS"], m⟩
        ((sectionHeader .ECL :: b1) ++ (sectionHeader .ECH :: b2) ++
          (sectionHeader .PH :: b3) ++ (sectionHeader .T :: binit))).2) = _
  rw [calFeed_append ⟨true, ["CALIBRATION EQUATIONS"], m⟩
      ((sectionHeader .ECL :: b1) ++ (sectionHeader .ECH :: b2) ++ (sectionHeader .PH :: b3))
      (sectionHeader .T :: binit)]
  rw [hA]
  show ((calFeed ⟨true, "CALIBRATION EQUATIONS" ::
        ((sectionHeader .ECL :: b1) ++ (sectionHeader .ECH :: b2) ++
          (sectionHeader .PH :: b3)), m⟩ (sectionHeader .T :: binit)).1,
      (calFeed ⟨true, "CALIBRATION EQUATIONS" ::
        ((sectionHeader .ECL :: b1) ++ (sectionHeader .ECH :: b2) ++
          (sectionHeader .PH :: b3)), m⟩ (sectionHeader .T :: binit)).2) = _
  rw [hB]
  rfl

/-- C1: feeding a well-formed four-section `CALIBRATION EQUATIONS`
response line by line — the header, the EC-low, EC-high, pH and
Temperature sections in order, the last section closed by a `Quality:`
line — emits exactly one equations event, exactly on that final
`Quality:` line (no event on any earlier line); the event carries the
per-channel data of exactly the sections with at least one parsed
calibration point (coefficient, intercept, the points in input order, and
the section's R²), sections without points — in particular one with an
`Equation:` line but no `P<n>:` line — being omitted; afterwards the
decoder is idle again with an empty buffer. -/
theorem calibration_equations_block
    (m : SensorMap) (b1 b2 b3 binit : List String) (lq : String)
    (q1 q2 q3 q4 : SecAcc)
    (hg1 : ∀ l ∈ b1, goodBodyLine l) (hg2 : ∀ l ∈ b2, goodBodyLine l)
    (hg3 : ∀ l ∈ b3, goodBodyLine l) (hgi : ∀ l ∈ binit, goodBodyLine l)
    (hnq : ∀ l ∈ binit, ¬startsWithPy (pyStrip l) "Quality:")
    (hq1 : startsWithPy (pyStrip lq) "Quality:") (hq2 : '\n' ∉ lq.data)
    (hq3 : headerOf (pyStrip lq) = none)
    (hs1 : sectionData b1 = some q1) (hs2 : sectionData b2 = some q2)
    (hs3 : sectionData b3 = some q3) (hs4 : sectionData (binit ++ [lq]) = some q4) :
    (calFeed ⟨false, [], m⟩ (fourSectionResponse b1 b2 b3 (binit ++ [lq]))).2
        = [CalEvent.equations false
            (expectedWrites [(.ECL, q1), (.ECH, q2), (.PH, q3), (.T, q4)]) true] ∧
      (calFeed ⟨false, [], m⟩ (fourSectionResponse b1 b2 b3 (binit ++ [lq]))).1.inEq
        = false ∧
      (calFeed ⟨false, [], m⟩ (fourSectionResponse b1 b2 b3 (binit ++ [lq]))).1.buffer
        = [] ∧
      (calFeed ⟨false, [], m⟩
        ((fourSectionResponse b1 b2 b3 (binit ++ [lq])).dropLast)).2 = [] := by
  have hsplit : fourSectionResponse b1 b2 b3 (binit ++ [lq])
      = ("CALIBRATION EQUATIONS" ::
          ((sectionHeader .ECL :: b1) ++ (sectionHeader .ECH :: b2) ++
            (sectionHeader .PH :: b3) ++ (sectionHeader .T :: binit))) ++ [lq] := by
    simp [fourSectionResponse, List.append_assoc]
  have hpre := calFeed_block_prefix m b1 b2 b3 binit hg1 hg2 hg3 hgi hnq
  have hTmem : containsSub (joinNL (("CALIBRATION EQUATIONS" ::
      ((sectionHeader .ECL :: b1) ++ (sectionHeader .ECH :: b2) ++
        (sectionHeader .PH :: b3) ++ (sectionHeader .T :: binit))) ++ [lq]))
      "--- TEMPERATURE ---" := by
    refine (containsSub_joinNL (by decide) (by decide) _).2
      ⟨sectionHeader .T, ?_, by decide⟩
    refine List.mem_append.2 (Or.inl ?_)
    refine List.mem_cons_of_mem _ ?_
    exact List.mem_append.2 (Or.inr (List.mem_cons_self _ _))
  have hflush := @calStep_flush ⟨true, "CALIBRATION EQUATIONS" ::
      ((sectionHeader .ECL :: b1) ++ (sectionHeader .ECH :: b2) ++
        (sectionHeader .PH :: b3) ++ (sectionHeader .T :: binit)), m⟩ lq rfl hTmem hq1
  have hrun : calFeed ⟨false, [], m⟩ (fourSectionResponse b1 b2 b3 (binit ++ [lq]))
      = (⟨false, [],
            (update_from_equations m
              (joinNL (fourSectionResponse b1 b2 b3 (binit ++ [lq])))).1⟩,
          [CalEvent.equations false
            (update_from_equations m
              (joinNL (fourSectionResponse b1 b2 b3 (binit ++ [lq])))).2.1
            (update_from_equations m
              (joinNL (fourSectionResponse b1 b2 b3 (binit ++ [lq])))).2.2]) := by
    rw [hsplit]
    rw [calFeed_append ⟨false, [], m⟩
        ("CALIBRATION EQUATIONS" ::
          ((sectionHeader .ECL :: b1) ++ (sectionHeader .ECH :: b2) ++
            (sectionHeader .PH :: b3) ++ (sectionHeader .T :: binit))) [lq]]
    rw [hpre]
    show ((calFeed ⟨true, "CALIBRATION EQUATIONS" ::
          ((sectionHeader .ECL :: b1) ++ (sectionHeader .ECH :: b2) ++
            (sectionHeader .PH :: b3) ++ (sectionHeader .T :: binit)), m⟩ [lq]).1,
        (calFeed ⟨true, "CALIBRATION EQUATIONS" ::
          ((sectionHeader .ECL :: b1) ++ (sectionHeader .ECH :: b2) ++
            (sectionHeader .PH :: b3) ++ (sectionHeader .T :: binit)), m⟩ [lq]).2) = _
    rw [show calFeed (⟨true, "CALIBRATION EQUATIONS" ::
          ((sectionHeader .ECL :: b1) ++ (sectionHeader .ECH :: b2) ++
            (sectionHeader .PH :: b3) ++ (sectionHeader .T :: binit)), m⟩ : CalState) [lq]
        = ((calStep ⟨true, "CALIBRATION EQUATIONS" ::
              ((sectionHeader .ECL :: b1) ++ (sectionHeader .ECH :: b2) ++
                (sectionHeader .PH :: b3) ++ (sectionHeader .T :: binit)), m⟩ lq).1,
            (calStep ⟨true, "CALIBRATION EQUATIONS" ::
              ((sectionHeader .ECL :: b1) ++ (sectionHeader .ECH :: b2) ++
                (sectionHeader .PH :: b3) ++ (sectionHeader .T :: binit)), m⟩ lq).2 ++ [])
        from rfl]
    rw [hflush]
    rfl
  have hn : ∀ l ∈ fourSectionResponse b1 b2 b3 (binit ++ [lq]), '\n' ∉ l.data := by
    intro x hx
    rw [hsplit] at hx
    rcases List.mem_append.1 hx with hx1 | hx1
    · rcases List.mem_cons.1 hx1 with rfl | hx2
      · decide
      · rcases List.mem_append.1 hx2 with hx3 | hx3
        · rcases List.mem_append.1 hx3 with hx4 | hx4
          · rcases List.mem_append.1 hx4 with hx5 | hx5
            · rcases List.mem_cons.1 hx5 with rfl | hx6
              · decide
              · exact (goodBodyLine_parts (hg1 x hx6)).1
            · rcases List.mem_cons.1 hx5 with rfl | hx6
              · decide
              · exact (goodBodyLine_parts (hg2 x hx6)).1
          · rcases List.mem_cons.1 hx4 with rfl | hx6
            · decide
            · exact (goodBodyLine_parts (hg3 x hx6)).1
        · rcases List.mem_cons.1 hx3 with rfl | hx6
          · decide
          · exact (goodBodyLine_parts (hgi x hx6)).1
    · rw [List.mem_singleton] at hx1
      subst hx1
      exact hq2
  have hh4 : ∀ l ∈ binit ++ [lq], headerOf (pyStrip l) = none := by
    intro x hx
    rcases List.mem_append.1 hx with hx1 | hx1
    · exact (goodBodyLine_parts (hgi x hx1)).2.2.2.1
    · rw [List.mem_singleton] at hx1
      subst hx1
      exact hq3
  have hresp := update_from_equations_response m b1 b2 b3 (binit ++ [lq]) q1 q2 q3 q4
      hn (fun l hl => (goodBodyLine_parts (hg1 l hl)).2.2.2.1)
      (fun l hl => (goodBodyLine_parts (hg2 l hl)).2.2.2.1)
      (fun l hl => (goodBodyLine_parts (hg3 l hl)).2.2.2.1)
      hh4 hs1 hs2 hs3 hs4
  refine ⟨?_, ?_, ?_, ?_⟩
  · rw [hrun]
    show [CalEvent.equations false
        (update_from_equations m
          (joinNL (fourSectionResponse b1 b2 b3 (binit ++ [lq])))).2.1
        (update_from_equations m
          (joinNL (fourSectionResponse b1 b2 b3 (binit ++ [lq])))).2.2] = _
    rw [hresp.1, hresp.2]
  · rw [hrun]
  · rw [hrun]
  · rw [hsplit, List.dropLast_concat, hpre]

/-- C1 witness: a concrete four-section response — EC-low with two points,
EC-high with an `Equation:` line but no points, pH with one point,
Temperature with one point and the closing `Quality:` line — emits exactly
the one equations event with the three populated channels. -/
theorem calibration_equations_block_witness :
    (calFeed ⟨false, [], SensorMap.empty⟩
        (fourSectionResponse
          ["Equation: EC = 0.0123 * V_mV + -0.05", "P1: 120.0mV -> 84.0",
            "P2: 250.5mV -> 1413.0", "Quality: R2=0.9987"]
          ["Equation: EC = 2.0 * V_mV + 1.0"]
          ["Equation: pH = -0.017 * V_mV + 7.0", "P1: 5.0mV -> 7.01",
            "Quality: R2=0.9991"]
          (["Equation: T = 0.1 * V_mV + 0.5", "P1: 100.0mV -> 25.0"] ++
            ["Quality: R2=0.9999"]))).2
      = [CalEvent.equations false
          (expectedWrites
            [(.ECL, (sectionData
                ["Equation: EC = 0.0123 * V_mV + -0.05", "P1: 120.0mV -> 84.0",
                  "P2: 250.5mV -> 1413.0", "Quality: R2=0.9987"]).getD ⟨[], 0, 0, 0⟩),
             (.ECH, (sectionData
                ["Equation: EC = 2.0 * V_mV + 1.0"]).getD ⟨[], 0, 0, 0⟩),
             (.PH, (sectionData
                ["Equation: pH = -0.017 * V_mV + 7.0", "P1: 5.0mV -> 7.01",
                  "Quality: R2=0.9991"]).getD ⟨[], 0, 0, 0⟩),
             (.T, (sectionData
                (["Equation: T = 0.1 * V_mV + 0.5", "P1: 100.0mV -> 25.0"] ++
                  ["Quality: R2=0.9999"])).getD ⟨[], 0, 0, 0⟩)]) true] :=
  (calibration_equations_block SensorMap.empty
    ["Equation: EC = 0.0123 * V_mV + -0.05", "P1: 120.0mV -> 84.0",
      "P2: 250.5mV -> 1413.0", "Quality: R2=0.9987"]
    ["Equation: EC = 2.0 * V_mV + 1.0"]
    ["Equation: pH = -0.017 * V_mV + 7.0", "P1: 5.0mV -> 7.01", "Quality: R2=0.9991"]
    ["Equation: T = 0.1 * V_mV + 0.5", "P1: 100.0mV -> 25.0"]
    "Quality: R2=0.9999"
    ((sectionData
      ["Equation: EC = 0.0123 * V_mV + -0.05", "P1: 120.0mV -> 84.0",
        "P2: 250.5mV -> 1413.0", "Quality: R2=0.9987"]).getD ⟨[], 0, 0, 0⟩)
    ((sectionData ["Equation: EC = 2.0 * V_mV + 1.0"]).getD ⟨[], 0, 0, 0⟩)
    ((sectionData
      ["Equation: pH = -0.017 * V_mV + 7.0", "P1: 5.0mV -> 7.01",
        "Quality: R2=0.9991"]).getD ⟨[], 0, 0, 0⟩)
    ((sectionData
      (["Equation: T = 0.1 * V_mV + 0.5", "P1: 100.0mV -> 25.0"] ++
        ["Quality: R2=0.9999"])).getD ⟨[], 0, 0, 0⟩)
    (by decide) (by decide) (by decide) (by decide) (by decide)
    (by decide) (by decide) (by decide)
    rfl rfl rfl rfl).1

end SensorBox
